import Mathlib

/-!
Verification of the `udp_connections` protocol core.

Shallow embedding of the repository's protocol engine:

* `src/sequencing.rs` — wrap-safe 16-bit sequence comparison, the sliding
  window `SequenceBuffer`, and the `SequenceNumberSet` ack window;
* `src/packets.rs`   — wire framing with a CRC-32 integrity check;
* `src/connection.rs` — the virtual connection (ack handling, RTT and
  packet-loss estimation);
* `src/reliable.rs`  — the reliable message channel and its second
  sequence buffer;
* `src/client.rs`, `src/server.rs`, `src/error.rs` — the endpoint state
  machines, their payload dispatch and API-misuse error paths.

Machine integers are modelled as `Nat` with explicit reduction modulo
`2^16` (u16) or `2^32` (u32) where the source relies on wrapping.  The
floating point estimators (`rtt`, `packet_loss`: `f32` in the source) are
idealised as rationals; no claim below depends on rounding.  Timestamps
(`Instant`) are idealised as rationals as well.
-/

set_option maxRecDepth 16000

namespace UdpConnections

/-! ## Sequencing primitives (`src/sequencing.rs`) -/

/-- `SequenceNumber` is `u16`; we represent values as `Nat < 2^16`. -/
abbrev SequenceNumber := Nat

/-- `u16::wrapping_add`. -/
def wadd (a b : Nat) : Nat := (a + b) % 65536

/-- `u16::wrapping_sub` (the first argument is a `u16`, i.e. `< 2^16`). -/
def wsub (a b : Nat) : Nat := (a + 65536 - b % 65536) % 65536

/-- `sequence_greater_than` from `src/sequencing.rs` (lines 152-155); note
`HALF = SequenceNumber::MAX / 2 = 65535 / 2 = 32767`. -/
def sequence_greater_than (s1 s2 : Nat) : Bool :=
  (decide (s1 > s2) && decide (s1 - s2 ≤ 65535 / 2)) ||
  (decide (s1 < s2) && decide (s2 - s1 > 65535 / 2))

/-- `sequence_less_than` from `src/sequencing.rs`. -/
def sequence_less_than (s1 s2 : Nat) : Bool := sequence_greater_than s2 s1

/-! ## `SequenceBuffer<T>` (`src/sequencing.rs` lines 5-98) -/

structure SequenceBuffer (T : Type) where
  newest_sequence_number : Nat
  len : Nat
  entries : List (Option T)

namespace SequenceBuffer

variable {T : Type}

/-- `SequenceBuffer::with_capacity`. -/
def with_capacity (size : Nat) : SequenceBuffer T :=
  { newest_sequence_number := 0, len := 0, entries := List.replicate size none }

/-- `SequenceBuffer::index` (`sequence as usize % self.entries.len()`). -/
def index (b : SequenceBuffer T) (sequence : Nat) : Nat :=
  sequence % b.entries.length

/-- `SequenceBuffer::next_sequence_number`. -/
def next_sequence_number (b : SequenceBuffer T) : Nat :=
  wadd b.newest_sequence_number 1

/-- `SequenceBuffer::oldest_sequence_number`
(`newest.wrapping_sub(len as u16).wrapping_add(1)`). -/
def oldest_sequence_number (b : SequenceBuffer T) : Nat :=
  wadd (wsub b.newest_sequence_number b.len) 1

/-- The `while` loop of `SequenceBuffer::remove_at`: decrement `len` while
the slot of the oldest sequence number is empty and `len > 0`. -/
def trimLen (entries : List (Option T)) (newest : Nat) : Nat → Nat
  | 0 => 0
  | l + 1 =>
    let oldest := wadd (wsub newest (l + 1)) 1
    match entries.getD (oldest % entries.length) none with
    | none => trimLen entries newest l
    | some _ => l + 1

/-- `SequenceBuffer::remove_at`. -/
def remove_at (b : SequenceBuffer T) (i : Nat) : Option T × SequenceBuffer T :=
  let old := b.entries.getD i none
  let entries' := b.entries.set i none
  (old, { b with entries := entries',
                 len := trimLen entries' b.newest_sequence_number b.len })

/-- `SequenceBuffer::try_insert`. -/
def try_insert (b : SequenceBuffer T) (data : T) :
    Option Nat × SequenceBuffer T :=
  let s := b.next_sequence_number
  let i := b.index s
  match b.entries.getD i none with
  | none =>
    (some s, { newest_sequence_number := s, len := b.len + 1,
               entries := b.entries.set i (some data) })
  | some _ => (none, b)

/-- `SequenceBuffer::insert`: evict the colliding slot, then `try_insert`
(which "should never fail"; the `(none, _)` branch is unreachable because
the slot was just cleared). -/
def insert (b : SequenceBuffer T) (data : T) :
    (Nat × Option T) × SequenceBuffer T :=
  let r := b.remove_at (b.index b.next_sequence_number)
  match r.2.try_insert data with
  | (some s, b2) => ((s, r.1), b2)
  | (none, b2) => ((r.2.next_sequence_number, r.1), b2)

/-- `SequenceBuffer::remove`. -/
def remove (b : SequenceBuffer T) (sequence : Nat) :
    Option T × SequenceBuffer T :=
  if sequence_greater_than sequence b.newest_sequence_number
      || sequence_less_than sequence b.oldest_sequence_number then
    (none, b)
  else
    b.remove_at (b.index sequence)

/-- `SequenceBuffer::is_empty`. -/
def is_empty (b : SequenceBuffer T) : Bool := b.len == 0

/-- The iterator of `src/sequencing.rs` lines 100-122: positions
`oldest .. newest` of the window, skipping empty slots. -/
def iterList (b : SequenceBuffer T) : List (Nat × T) :=
  (List.range b.len).filterMap (fun i =>
    match b.entries.getD
        (b.index (wsub b.newest_sequence_number (b.len - (i + 1)))) none with
    | none => none
    | some data => some (wsub b.newest_sequence_number (b.len - (i + 1)), data))

/-- Modelled from the spec: `SequenceBuffer::drain_older` is invoked by
`VirtualConnection::handle_ack` (src/connection.rs line 133) but is absent
from src/sequencing.rs.  Spec §3 requires the buffer to support "draining
all entries strictly older than a given seq"; we model it as removing every
live entry whose sequence is wrap-strictly-less than the cutoff, oldest
first, yielding the drained pairs. -/
def drain_older (b : SequenceBuffer T) (cutoff : Nat) :
    List (Nat × T) × SequenceBuffer T :=
  let victims := b.iterList.filter (fun p => sequence_less_than p.1 cutoff)
  (victims, victims.foldl (fun acc p => (acc.remove p.1).2) b)

end SequenceBuffer

/-! ## `SequenceNumberSet` (`src/sequencing.rs` lines 161-243) -/

structure SequenceNumberSet where
  latest : Nat
  bitfield : Nat
deriving DecidableEq

namespace SequenceNumberSet

/-- `SequenceNumberSet::from_bitfield`. -/
def from_bitfield (latest bitfield : Nat) : SequenceNumberSet :=
  { latest := latest, bitfield := bitfield }

/-- `SequenceNumberSet::new`. -/
def new (sequence : Nat) : SequenceNumberSet := from_bitfield sequence 0

/-- `SequenceNumberSet::capacity` (`u32::BITS + 1 = 33`). -/
def capacity : Nat := 33

/-- The private `SequenceNumberSet::index`. -/
def indexOf (t : SequenceNumberSet) (sequence : Nat) : Option Nat :=
  if sequence_less_than sequence t.latest then
    let offset := wsub t.latest sequence
    if offset ≥ capacity then none else some (offset - 1)
  else none

/-- `SequenceNumberSet::contains`. -/
def contains (t : SequenceNumberSet) (sequence : Nat) : Bool :=
  match t.latest == sequence with
  | true => true
  | false =>
    match t.indexOf sequence with
    | none => false
    | some index => (t.bitfield >>> index) &&& 1 == 1

/-- `SequenceNumberSet::insert` (returning the set and the `bool` result).
`u32` shifts are reduced modulo `2^32`; a shift amount above 31 would panic
in a debug build of the source, which no claim exercises. -/
def insert (t : SequenceNumberSet) (sequence : Nat) :
    SequenceNumberSet × Bool :=
  match sequence_greater_than sequence t.latest with
  | true =>
    let offset := wsub sequence t.latest
    let bf0 := (t.bitfield <<< 1) % 4294967296
    let bf1 := bf0 ||| 1
    let bf2 := (bf1 <<< (offset - 1)) % 4294967296
    ({ latest := sequence, bitfield := bf2 }, true)
  | false =>
    match t.indexOf sequence with
    | none => (t, false)
    | some index =>
      let old := t.bitfield
      let bf := t.bitfield ||| (1 <<< index)
      ({ t with bitfield := bf }, bf != old)

/-- `SequenceNumberSet::iter`: candidates `latest - 32, …, latest - 0`,
filtered by `contains`. -/
def iterList (t : SequenceNumberSet) : List Nat :=
  (((List.range capacity).reverse).map (fun i => wsub t.latest i)).filter
    (fun i => t.contains i)

end SequenceNumberSet

/-- `k` consecutive `insert`s of `f 1, …, f k` into a fresh buffer of
capacity `N`. -/
def insertRun {T : Type} (N : Nat) (f : Nat → T) : Nat → SequenceBuffer T
  | 0 => SequenceBuffer.with_capacity N
  | k + 1 => ((insertRun N f k).insert (f (k + 1))).2

/-! ## Wire framing (`src/packets.rs`) -/

/-- `MAX_PACKET_SIZE` from `src/constants.rs`. -/
def MAX_PACKET_SIZE : Nat := 1500

/-- One byte of the reflected IEEE 802.3 CRC-32 (`crc32fast::Hasher`). -/
def crc32_update (crc byte : Nat) : Nat :=
  (List.range 8).foldl
    (fun c _ => if c % 2 = 1 then (c / 2) ^^^ 0xEDB88320 else c / 2)
    (crc ^^^ byte)

/-- CRC-32 of a byte string (init `0xFFFFFFFF`, final xor `0xFFFFFFFF`);
validated against the reference implementation. -/
def crc32 (data : List Nat) : Nat :=
  (data.foldl (fun crc b => crc32_update crc b) 0xFFFFFFFF) ^^^ 0xFFFFFFFF

/-- `byteorder::ReadBytesExt::read_u8` on a `&[u8]` reader. -/
def read_u8 : List Nat → Option (Nat × List Nat)
  | [] => none
  | b :: rest => some (b, rest)

/-- `read_u16::<NetworkEndian>`. -/
def read_u16 (l : List Nat) : Option (Nat × List Nat) :=
  match read_u8 l with
  | none => none
  | some (b0, l1) =>
    match read_u8 l1 with
    | none => none
    | some (b1, l2) => some (b0 * 256 + b1, l2)

/-- `read_u32::<NetworkEndian>`. -/
def read_u32 (l : List Nat) : Option (Nat × List Nat) :=
  match read_u16 l with
  | none => none
  | some (hi, l1) =>
    match read_u16 l1 with
    | none => none
    | some (lo, l2) => some (hi * 65536 + lo, l2)

/-- `write_u16::<NetworkEndian>`: two big-endian bytes. -/
def be16 (v : Nat) : List Nat := [v / 256 % 256, v % 256]

/-- `write_u32::<NetworkEndian>`: four big-endian bytes. -/
def be32 (v : Nat) : List Nat := be16 (v / 65536) ++ be16 (v % 65536)

/-- The parse failures of `Packet::from`: the custom `assert` errors
(`"bad checksum"`, `"Invalid packet id"`, `"wrong packet size"`) and the
io error a `read_*` raises on a truncated slice. -/
inductive ParseErr where
  | badChecksum
  | invalidPacketId
  | wrongPacketSize
  | unexpectedEof
deriving DecidableEq

instance {e a : Type} [DecidableEq e] [DecidableEq a] :
    DecidableEq (Except e a) := fun x y =>
  match x, y with
  | .ok u, .ok v =>
    if h : u = v then isTrue (by rw [h]) else isFalse (by simp [h])
  | .error u, .error v =>
    if h : u = v then isTrue (by rw [h]) else isFalse (by simp [h])
  | .ok _, .error _ => isFalse (by simp)
  | .error _, .ok _ => isFalse (by simp)

/-- `Packet` from `src/packets.rs` lines 14-22. -/
inductive Packet where
  | ConnectionRequest
  | ConnectionAccepted (id : Nat)
  | ConnectionDenied
  | KeepAlive (ack : SequenceNumberSet)
  | Disconnect
  | Payload (sequence : Nat) (ack : SequenceNumberSet) (data : List Nat)
deriving DecidableEq

namespace Packet

/-- The frame body written by `Packet::write`: the kind byte followed by
the kind payload (`payload.len() as u16` truncates). -/
def body : Packet → List Nat
  | .ConnectionRequest => [0x00]
  | .ConnectionAccepted id => 0x01 :: be16 id
  | .ConnectionDenied => [0x02]
  | .KeepAlive ack => 0x03 :: (be16 ack.latest ++ be32 ack.bitfield)
  | .Disconnect => [0x04]
  | .Payload sequence ack data =>
    0x05 :: (be16 sequence ++ (be16 ack.latest ++ (be32 ack.bitfield
      ++ (be16 (data.length % 65536) ++ data))))

/-- `Packet::write` into the socket's MTU-sized buffer
(`PacketSocket.buffer: [u8; MAX_PACKET_SIZE]`): the CRC-32 of
`salt ++ body`, big-endian, followed by the body; `none` when the frame
does not fit the buffer (the `Cursor` write fails). -/
def write (p : Packet) (salt : List Nat) : Option (List Nat) :=
  let b := p.body
  if 4 + b.length ≤ MAX_PACKET_SIZE then
    some (be32 (crc32 (salt ++ b)) ++ b)
  else
    none

/-- The kind-byte dispatch of `Packet::from` (the `match data.read_u8()?`
arms), split out for proof convenience; the `u8` match on kind literals is
rendered as an if-chain. -/
def parseBody (rest : List Nat) : Except ParseErr Packet :=
  match read_u8 rest with
  | none => .error .unexpectedEof
  | some (kind, r1) =>
    if kind = 0x00 then .ok .ConnectionRequest
    else if kind = 0x01 then
      match read_u16 r1 with
      | none => .error .unexpectedEof
      | some (id, _) => .ok (.ConnectionAccepted id)
    else if kind = 0x02 then .ok .ConnectionDenied
    else if kind = 0x03 then
      match read_u16 r1 with
      | none => .error .unexpectedEof
      | some (latest, r2) =>
        match read_u32 r2 with
        | none => .error .unexpectedEof
        | some (bf, _) => .ok (.KeepAlive (.from_bitfield latest bf))
    else if kind = 0x04 then .ok .Disconnect
    else if kind = 0x05 then
      match read_u16 r1 with
      | none => .error .unexpectedEof
      | some (sequence, r2) =>
        match read_u16 r2 with
        | none => .error .unexpectedEof
        | some (latest, r3) =>
          match read_u32 r3 with
          | none => .error .unexpectedEof
          | some (bf, r4) =>
            match read_u16 r4 with
            | none => .error .unexpectedEof
            | some (len, r5) =>
              if len == r5.length then
                .ok (.Payload sequence (.from_bitfield latest bf) r5)
              else
                .error .wrongPacketSize
    else .error .invalidPacketId

/-- `Packet::from` (named `parse` here; `from` is a Lean keyword):
read the checksum, verify it over `salt ++ rest`, then dispatch on the
kind byte. -/
def parse (data : List Nat) (salt : List Nat) : Except ParseErr Packet :=
  match read_u32 data with
  | none => .error .unexpectedEof
  | some (checksum, rest) =>
    if checksum == crc32 (salt ++ rest) then
      parseBody rest
    else
      .error .badChecksum

/-- Validity of a packet for the round-trip claim: `u16`/`u32` fields in
range, payload bytes are bytes, and the Payload frame
(`4 + 11 + len` bytes) fits the 1500-byte maximum datagram. -/
def valid : Packet → Prop
  | .ConnectionRequest => True
  | .ConnectionAccepted id => id < 65536
  | .ConnectionDenied => True
  | .KeepAlive ack => ack.latest < 65536 ∧ ack.bitfield < 4294967296
  | .Disconnect => True
  | .Payload sequence ack data =>
    sequence < 65536 ∧ ack.latest < 65536 ∧ ack.bitfield < 4294967296
      ∧ data.length + 15 ≤ 1500 ∧ ∀ b ∈ data, b < 256

instance : DecidablePred valid := by
  intro p
  unfold valid
  cases p <;> infer_instance

end Packet

/-! ## Virtual connection (`src/connection.rs`) -/

/-- Constants from `src/constants.rs`. -/
def PACKET_LOST_CUTOFF : Nat := 40

/-- `PL_SMOOTHING_FACTOR = 0.025` (`f32` idealised as a rational). -/
def PL_SMOOTHING_FACTOR : ℚ := 1 / 40

/-- `RTT_SMOOTHING_FACTOR = 0.1`. -/
def RTT_SMOOTHING_FACTOR : ℚ := 1 / 10

/-- `lerp` from `src/connection.rs` line 158-160. -/
def lerp (a b v : ℚ) : ℚ := a + (b - a) * v

/-- `PacketInformation` (`send_time: Instant` idealised as a rational). -/
structure PacketInformation where
  send_time : ℚ

/-- The result of classifying a received sequence number.  The endpoints
(`src/client.rs` line 9, `src/server.rs` line 9) import `SequenceResult`
from `crate::sequencing`, where it is absent; the four variants are the
spec's (§4.2). -/
inductive SequenceResult where
  | Latest
  | Fresh
  | Duplicate
  | TooOld
deriving DecidableEq

/-- Modelled from the spec: the `SequenceResult`-returning insert used by
`VirtualConnection::handle_seq` and the endpoints is missing from
`src/sequencing.rs` (whose `insert` returns `bool`).  Spec §4.2:
"Inserts s into `received`. If `s > latest`, mark `Latest`. If s falls
within the 32-bit window and was a new bit, `Fresh`. If already set or
equal to latest, `Duplicate`. If outside the window on the low side,
`TooOld`."  The set update is exactly the code's `insert`. -/
def SequenceNumberSet.insert_classified (t : SequenceNumberSet)
    (sequence : Nat) : SequenceNumberSet × SequenceResult :=
  match sequence_greater_than sequence t.latest with
  | true => ((t.insert sequence).1, .Latest)
  | false =>
    match t.indexOf sequence with
    | none => (t, if t.latest = sequence then .Duplicate else .TooOld)
    | some index =>
      if (t.bitfield >>> index) &&& 1 == 1 then (t, .Duplicate)
      else ((t.insert sequence).1, .Fresh)

/-- `VirtualConnection` (`src/connection.rs` lines 76-86): the peer address
is opaque (a number), timestamps and the smoothed estimators are
rationals. -/
structure VirtualConnection where
  addrs : Nat
  id : Nat
  last_received_packet : ℚ
  last_send_packet : ℚ
  received_packets : SequenceNumberSet
  sent_packets : SequenceBuffer PacketInformation
  rtt : ℚ
  packet_loss : ℚ

namespace VirtualConnection

/-- `VirtualConnection::new` at time `now`. -/
def new (addrs id : Nat) (now : ℚ) : VirtualConnection :=
  { addrs := addrs, id := id, last_received_packet := now,
    last_send_packet := now, received_packets := SequenceNumberSet.new 0,
    sent_packets := SequenceBuffer.with_capacity 1024, rtt := 0,
    packet_loss := 0 }

/-- `VirtualConnection::on_receive`. -/
def on_receive (vc : VirtualConnection) (now : ℚ) : VirtualConnection :=
  { vc with last_received_packet := now }

/-- `VirtualConnection::handle_seq`: insert into `received_packets` and
classify; the endpoints match on the returned `SequenceResult`. -/
def handle_seq (vc : VirtualConnection) (seq : Nat) :
    VirtualConnection × SequenceResult :=
  let r := vc.received_packets.insert_classified seq
  ({ vc with received_packets := r.1 }, r.2)

/-- `VirtualConnection::handle_ack` exactly as written in
`src/connection.rs` lines 131-145: drain everything older than
`ack.latest - PACKET_LOST_CUTOFF`, updating only `packet_loss` (the
callback is **not** invoked for drained losses); then for every sequence
iterated from the ack set that is still live, remove it, invoke the
callback, and update `rtt` and `packet_loss`.  The returned list collects
the callback invocations. -/
def handle_ack (vc : VirtualConnection) (ack : SequenceNumberSet)
    (now : ℚ) : VirtualConnection × List Nat :=
  let dr := vc.sent_packets.drain_older (wsub ack.latest PACKET_LOST_CUTOFF)
  let pl1 := dr.1.foldl (fun pl _ => lerp pl 1 PL_SMOOTHING_FACTOR)
    vc.packet_loss
  let final := ack.iterList.foldl
    (fun (acc : SequenceBuffer PacketInformation × ℚ × ℚ × List Nat) seq =>
      match acc.1.remove seq with
      | (some info, sent') =>
        (sent', lerp acc.2.1 (now - info.send_time) RTT_SMOOTHING_FACTOR,
         lerp acc.2.2.1 0 PL_SMOOTHING_FACTOR, acc.2.2.2 ++ [seq])
      | (none, sent') => (sent', acc.2.1, acc.2.2.1, acc.2.2.2))
    (dr.2, vc.rtt, pl1, [])
  ({ vc with sent_packets := final.1, rtt := final.2.1,
             packet_loss := final.2.2.1 }, final.2.2.2)

/-- `VirtualConnection::peek_next_sequence_number`. -/
def peek_next_sequence_number (vc : VirtualConnection) : Nat :=
  vc.sent_packets.next_sequence_number

/-- `VirtualConnection::next_sequence_number`: insert a fresh
`PacketInformation` stamped `now` and return the assigned sequence. -/
def next_sequence_number (vc : VirtualConnection) (now : ℚ) :
    Nat × VirtualConnection :=
  let r := vc.sent_packets.insert { send_time := now }
  (r.1.1, { vc with sent_packets := r.2 })

/-- Modelled from the spec: `src/reliable.rs` line 84 calls
`connection.create_sequence_number()`, absent from `src/connection.rs`;
per spec §4.2 it is the sequence-assigning insert
(`next_sequence_number`). -/
def create_sequence_number (vc : VirtualConnection) (now : ℚ) :
    Nat × VirtualConnection :=
  vc.next_sequence_number now

/-- Modelled from the spec: `src/reliable.rs` line 85 calls
`connection.get_received_packets()`, absent from `src/connection.rs`; per
spec §4.2/§4.3 it is the current ack set of received sequences. -/
def get_received_packets (vc : VirtualConnection) : SequenceNumberSet :=
  vc.received_packets

end VirtualConnection

/-! ## Reliable message channel (`src/reliable.rs`) -/

/-- `Message` (`src/reliable.rs` lines 8-12). -/
structure Message where
  data : List Nat
  sequence_number : List Nat

instance : Inhabited Message := ⟨⟨[], []⟩⟩

/-- `SequenceBuffer2<T>` (`src/reliable.rs` lines 107-208). -/
structure SequenceBuffer2 (T : Type) where
  sequence_num : Nat
  entry_sequences : List (Option Nat)
  entries : List T

namespace SequenceBuffer2

variable {T : Type} [Inhabited T]

/-- `SequenceBuffer2::with_capacity`. -/
def with_capacity (size : Nat) : SequenceBuffer2 T :=
  { sequence_num := 0, entry_sequences := List.replicate size none,
    entries := List.replicate size default }

/-- `SequenceBuffer2::index`. -/
def index (b : SequenceBuffer2 T) (sequence : Nat) : Nat :=
  sequence % b.entry_sequences.length

/-- `SequenceBuffer2::exists`: whether the slot holds exactly this
sequence number (`exists` is a Lean keyword, hence `exists_seq`). -/
def exists_seq (b : SequenceBuffer2 T) (sequence_num : Nat) : Bool :=
  match b.entry_sequences.getD (b.index sequence_num) none with
  | some s => s == sequence_num
  | none => false

/-- `SequenceBuffer2::remove` (`std::mem::take` resets to the default). -/
def remove (b : SequenceBuffer2 T) (sequence_num : Nat) :
    Option T × SequenceBuffer2 T :=
  if b.exists_seq sequence_num then
    (some (b.entries.getD (b.index sequence_num) default),
     { b with entries := b.entries.set (b.index sequence_num) default,
              entry_sequences :=
                b.entry_sequences.set (b.index sequence_num) none })
  else (none, b)

/-- `SequenceBuffer2::remove_entries`. -/
def remove_entries (b : SequenceBuffer2 T) (finish_sequence : Nat) :
    SequenceBuffer2 T :=
  let start_sequence := b.sequence_num
  let fin := if finish_sequence < start_sequence then finish_sequence + 65536
    else finish_sequence
  if fin - start_sequence < b.entry_sequences.length then
    (List.range (fin - start_sequence + 1)).foldl
      (fun bb i => (bb.remove ((start_sequence + i) % 65536)).2) b
  else
    { b with entries := List.replicate b.entries.length default,
             entry_sequences := List.replicate b.entry_sequences.length none }

/-- `SequenceBuffer2::advance_sequence`. -/
def advance_sequence (b : SequenceBuffer2 T) (sequence_num : Nat) :
    SequenceBuffer2 T :=
  if sequence_greater_than (wadd sequence_num 1) b.sequence_num then
    let b' := b.remove_entries sequence_num
    { b' with sequence_num := wadd sequence_num 1 }
  else b

/-- `SequenceBuffer2::insert`: refuse sequence numbers older than the
window, otherwise advance and store. -/
def insert (b : SequenceBuffer2 T) (sequence_num : Nat) (entry : T) :
    SequenceBuffer2 T × Bool :=
  if sequence_less_than sequence_num
      (wsub b.sequence_num b.entry_sequences.length) then
    (b, false)
  else
    let b' := b.advance_sequence sequence_num
    ({ b' with
        entry_sequences :=
          b'.entry_sequences.set (b'.index sequence_num) (some sequence_num),
        entries := b'.entries.set (b'.index sequence_num) entry }, true)

end SequenceBuffer2

/-- `MessageChannel` (`src/reliable.rs` lines 14-20); the scratch `buffer`
is write-only state rebuilt by every `send_packets` (`packet.clear()`),
so the embedding returns the built bytes instead of storing them. -/
structure MessageChannel where
  outgoing_messages : SequenceBuffer Message
  incoming_messages : SequenceBuffer2 (List Nat)
  last_read_message : Nat

namespace MessageChannel

/-- `MessageChannel::new`. -/
def new : MessageChannel :=
  { outgoing_messages := SequenceBuffer.with_capacity 256,
    incoming_messages := SequenceBuffer2.with_capacity 256,
    last_read_message := 0 }

/-- `MessageChannel::receive_message`. -/
def receive_message (c : MessageChannel) :
    Option (List Nat) × MessageChannel :=
  let next := wadd c.last_read_message 1
  match c.incoming_messages.remove next with
  | (none, inc) => (none, { c with incoming_messages := inc })
  | (some msg, inc) =>
    (some msg, { c with incoming_messages := inc,
                        last_read_message := next })

/-- `MessageChannel::queue_message`. -/
def queue_message (c : MessageChannel) (msg : List Nat) : MessageChannel :=
  { c with outgoing_messages :=
      (c.outgoing_messages.insert { data := msg, sequence_number := [] }).2 }

/-- `read_exact` into a `size`-byte buffer. -/
def read_exact (l : List Nat) (n : Nat) : Option (List Nat × List Nat) :=
  if n ≤ l.length then some (l.take n, l.drop n) else none

/-- The record loop of `MessageChannel::on_receive`: `len` iterations of
msg_id (u16), size (u8), then either buffer the body (future, not yet
buffered) or skip its bytes.  The `Bool` is the `io::Result`; mutations
made before a failure persist (`&mut self`). -/
def on_receive_loop : Nat → MessageChannel → List Nat →
    MessageChannel × Bool
  | 0, c, _ => (c, true)
  | n + 1, c, packet =>
    match read_u16 packet with
    | none => (c, false)
    | some (msg_id, p1) =>
      match read_u8 p1 with
      | none => (c, false)
      | some (size, p2) =>
        if sequence_less_than c.last_read_message msg_id
            && !(c.incoming_messages.exists_seq msg_id) then
          match read_exact p2 size with
          | none => (c, false)
          | some (buf, p3) =>
            on_receive_loop n
              { c with incoming_messages :=
                  (c.incoming_messages.insert msg_id buf).1 } p3
        else
          match read_exact p2 size with
          | none => (c, false)
          | some (_, p3) => on_receive_loop n c p3

/-- `MessageChannel::on_receive`. -/
def on_receive (c : MessageChannel) (packet : List Nat) :
    MessageChannel × Bool :=
  match read_u8 packet with
  | none => (c, false)
  | some (len, p1) => on_receive_loop len c p1

/-- `MessageChannel::on_ack`: collect the ids of live outgoing messages
whose recorded transmission attempts contain `seq`, then remove each. -/
def on_ack (c : MessageChannel) (seq : Nat) : MessageChannel :=
  let tmp := (c.outgoing_messages.iterList.filter
      (fun p => p.2.sequence_number.contains seq)).map Prod.fst
  { c with outgoing_messages :=
      tmp.foldl (fun b id => (b.remove id).2) c.outgoing_messages }

end MessageChannel

/-- The in-place `iter_mut` update of one entry (used by `send_packets`
to push the transport sequence onto a message's attempt list). -/
def SequenceBuffer.modifyAt {T : Type} (b : SequenceBuffer T) (seqn : Nat)
    (f : T → T) : SequenceBuffer T :=
  let upd := match b.entries.getD (b.index seqn) none with
    | some v => some (f v)
    | none => none
  { b with entries := b.entries.set (b.index seqn) upd }

/-- The up-to-five oldest live outgoing messages that the next
`send_packets` call will include (`iter_mut().take(5)`). -/
def MessageChannel.included_messages (c : MessageChannel) :
    List (Nat × Message) :=
  c.outgoing_messages.iterList.take 5

/-- `MessageChannel::send_packets`: assign the transport sequence, take up
to 5 outgoing messages oldest-first, build the composite payload
(count byte, then records `u16 msg_id, u8 len, bytes`), record the
transport sequence in each included message's attempts, and return the
`Payload` packet. -/
def MessageChannel.send_packets (c : MessageChannel)
    (connection : VirtualConnection) (now : ℚ) :
    MessageChannel × VirtualConnection × Packet :=
  let r := connection.create_sequence_number now
  let seq := r.1
  let ack := r.2.get_received_packets
  let msgs := c.included_messages
  let payload := msgs.length % 256 ::
    (msgs.map (fun p => be16 p.1 ++ (p.2.data.length % 256 :: p.2.data))).flatten
  let outgoing' := msgs.foldl
    (fun b p => b.modifyAt p.1
      (fun m => { m with sequence_number := m.sequence_number ++ [seq] }))
    c.outgoing_messages
  ({ c with outgoing_messages := outgoing' }, r.2,
   Packet.Payload seq ack payload)

/-- `MessageChannel::has_unsend_messages`. -/
def MessageChannel.has_unsend_messages (c : MessageChannel) : Bool :=
  !c.outgoing_messages.iterList.isEmpty

/-! ## C1: in-order exactly-once delivery of the reliable channel -/

/-- A host-visible interaction with one `MessageChannel`: feed a received
composite payload, or poll for the next deliverable message. -/
inductive ChannelOp where
  | recv (packet : List Nat)
  | poll

/-- Run a sequence of operations from a channel state, collecting the
message id delivered by each successful poll. -/
def runChannel : MessageChannel → List ChannelOp → MessageChannel × List Nat
  | c, [] => (c, [])
  | c, ChannelOp.recv p :: ops => runChannel (c.on_receive p).1 ops
  | c, ChannelOp.poll :: ops =>
    let r := c.receive_message
    let rest := runChannel r.2 ops
    match r.1 with
    | some _ => (rest.1, wadd c.last_read_message 1 :: rest.2)
    | none => (rest.1, rest.2)

/-! ## Endpoints (`src/client.rs`, `src/server.rs`, `src/error.rs`) -/

/-- `ClientDisconnectReason` (`src/client.rs` lines 12-18); the io
`ErrorKind` is opaque (a number). -/
inductive ClientDisconnectReason where
  | Disconnected
  | TimedOut
  | ConnectionDenied
  | SocketError (kind : Nat)
deriving DecidableEq

/-- `ClientEvent` (`src/client.rs` lines 20-27); payload bytes are the
copied slice. -/
inductive ClientEvent where
  | Connected (id : Nat)
  | Disconnected (reason : ClientDisconnectReason)
  | PacketReceived (is_latest : Bool) (data : List Nat)
  | PacketAcknowledged (seq : Nat)
  | PacketLost (seq : Nat)
deriving DecidableEq

/-- `ClientState` (`src/client.rs` lines 29-35). -/
inductive ClientState where
  | Disconnected
  | Connecting (addrs : Nat) (start : ℚ)
  | Connected (vc : VirtualConnection)
  | Disconnecting (reason : ClientDisconnectReason)

/-- `ServerDisconnectReason` (`src/server.rs` lines 12-17). -/
inductive ServerDisconnectReason where
  | Disconnected
  | TimedOut
  | SocketError (kind : Nat)
deriving DecidableEq

/-- `ServerEvent` (`src/server.rs` lines 19-26). -/
inductive ServerEvent where
  | ClientConnected (id : Nat)
  | ClientDisconnected (id : Nat) (reason : ServerDisconnectReason)
  | PacketReceived (id : Nat) (is_latest : Bool) (data : List Nat)
  | PacketAcknowledged (id : Nat) (seq : Nat)
  | PacketLost (id : Nat) (seq : Nat)
deriving DecidableEq

/-- The server's per-slot `ClientState` (`src/server.rs` lines 28-33). -/
inductive ServerClientState where
  | Disconnected
  | Connected (vc : VirtualConnection)
  | Disconnecting (reason : ServerDisconnectReason)

/-- `ConnectionError` (`src/error.rs` lines 7-12). -/
inductive ConnectionError where
  | Disconnected
  | ConnectionNotReady
  | SocketError (kind : Nat)
deriving DecidableEq

/-- Modelled from the spec: both endpoints pass two-argument callbacks
`|seq, acked| …` to `handle_ack` (`src/client.rs` line 175,
`src/server.rs` line 210) and emit `PacketLost` from the `acked = false`
entries, while `src/connection.rs`'s `handle_ack` takes a one-argument
callback and never reports losses; spec §4.2 step 1 requires
`notify(seq, lost)` for every drained in-flight entry.  This is the
caller-consistent `handle_ack`: identical to the code's except that the
drain loop notifies `(seq, false)` and the ack loop `(seq, true)`. -/
def VirtualConnection.handle_ack_notify (vc : VirtualConnection)
    (ack : SequenceNumberSet) (now : ℚ) :
    VirtualConnection × List (Nat × Bool) :=
  let dr := vc.sent_packets.drain_older (wsub ack.latest PACKET_LOST_CUTOFF)
  let lost := dr.1.foldl
    (fun (acc : ℚ × List (Nat × Bool)) p =>
      (lerp acc.1 1 PL_SMOOTHING_FACTOR, acc.2 ++ [(p.1, false)]))
    (vc.packet_loss, [])
  let final := ack.iterList.foldl
    (fun (acc : SequenceBuffer PacketInformation × ℚ × ℚ × List (Nat × Bool))
        seq =>
      match acc.1.remove seq with
      | (some info, sent') =>
        (sent', lerp acc.2.1 (now - info.send_time) RTT_SMOOTHING_FACTOR,
         lerp acc.2.2.1 0 PL_SMOOTHING_FACTOR, acc.2.2.2 ++ [(seq, true)])
      | (none, sent') => (sent', acc.2.1, acc.2.2.1, acc.2.2.2))
    (dr.2, vc.rtt, lost.1, lost.2)
  ({ vc with sent_packets := final.1, rtt := final.2.1,
             packet_loss := final.2.2.1 }, final.2.2.2)

/-- One iteration of the client's receive loop in the `Connected` state
(`src/client.rs` lines 170-190): the next parsed packet from the peer is
dispatched; the returned event is `none` when the loop silently continues
(dropped payload, keepalive, unknown kind). -/
def client_handle_connected_packet (vc : VirtualConnection)
    (ack_queue : List (Nat × Bool)) (pkt : Packet) (now : ℚ) :
    ClientState × List (Nat × Bool) × Option ClientEvent :=
  match pkt with
  | .Payload seq ack data =>
    let hs := vc.handle_seq seq
    match hs.2 with
    | .Latest | .Fresh =>
      let vc1 := hs.1.on_receive now
      let ha := vc1.handle_ack_notify ack now
      (.Connected ha.1, ack_queue ++ ha.2,
       some (.PacketReceived (hs.2 == SequenceResult.Latest) data))
    | .Duplicate => (.Connected hs.1, ack_queue, none)
    | .TooOld => (.Connected hs.1, ack_queue, none)
  | .KeepAlive ack =>
    let vc1 := vc.on_receive now
    let ha := vc1.handle_ack_notify ack now
    (.Connected ha.1, ack_queue ++ ha.2, none)
  | .Disconnect =>
    (.Disconnected, ack_queue,
     some (.Disconnected ClientDisconnectReason.Disconnected))
  | _ => (.Connected vc, ack_queue, none)

/-- The server's dispatch of a `Payload` from a known peer
(`src/server.rs` lines 206-215): `handle_seq`, then on `Latest`/`Fresh`
drive the acks (keyed by the slot id), bump `on_receive`, and surface the
payload; otherwise the packet is dropped and the loop continues. -/
def server_handle_payload (conn : VirtualConnection)
    (ack_queue : List (Nat × Nat × Bool)) (seq : Nat)
    (ack : SequenceNumberSet) (data : List Nat) (now : ℚ) :
    VirtualConnection × List (Nat × Nat × Bool) × Option ServerEvent :=
  let hs := conn.handle_seq seq
  match hs.2 with
  | .Latest | .Fresh =>
    let id := hs.1.id
    let ha := hs.1.handle_ack_notify ack now
    let conn2 := ha.1.on_receive now
    (conn2, ack_queue ++ ha.2.map (fun x => (id, x.1, x.2)),
     some (.PacketReceived id (hs.2 == SequenceResult.Latest) data))
  | .Duplicate => (hs.1, ack_queue, none)
  | .TooOld => (hs.1, ack_queue, none)

/-- `Client::send` (`src/client.rs` lines 200-209); the transport outcome
is a parameter (`none` = delivered, `some kind` = io error).  Returns the
new state, the packets actually handed to the transport, and the result. -/
def client_send (state : ClientState) (payload : List Nat) (now : ℚ)
    (sendErr : Option Nat) :
    ClientState × List Packet × Except ConnectionError Nat :=
  match state with
  | .Connected vc =>
    let r := vc.next_sequence_number now
    let pkt := Packet.Payload r.1 r.2.received_packets payload
    match sendErr with
    | none =>
      (.Connected { r.2 with last_send_packet := now }, [pkt], .ok r.1)
    | some kind =>
      (.Disconnecting (.SocketError kind), [],
        .error ConnectionError.Disconnected)
  | .Disconnected => (state, [], .error ConnectionError.Disconnected)
  | .Connecting a t => (state, [], .error ConnectionError.ConnectionNotReady)
  | .Disconnecting r => (state, [], .error ConnectionError.ConnectionNotReady)

/-- `ConnectionManager::get_connection_mut` (`src/server.rs` lines
92-101): slot out of range or `Disconnected` → `Disconnected` error;
`Disconnecting` → `ConnectionNotReady`. -/
def get_connection_mut (slots : List ServerClientState) (client_id : Nat) :
    Except ConnectionError VirtualConnection :=
  match slots.get? client_id with
  | some (.Connected vc) => .ok vc
  | some .Disconnected => .error ConnectionError.Disconnected
  | some (.Disconnecting _) => .error ConnectionError.ConnectionNotReady
  | none => .error ConnectionError.Disconnected

/-- `Server::send` (`src/server.rs` lines 239-248). -/
def server_send (slots : List ServerClientState) (client_id : Nat)
    (payload : List Nat) (now : ℚ) (sendErr : Option Nat) :
    List ServerClientState × List Packet × Except ConnectionError Nat :=
  match get_connection_mut slots client_id with
  | .error e => (slots, [], .error e)
  | .ok vc =>
    let r := vc.next_sequence_number now
    let pkt := Packet.Payload r.1 r.2.received_packets payload
    match sendErr with
    | none =>
      (slots.set client_id
        (.Connected { r.2 with last_send_packet := now }), [pkt], .ok r.1)
    | some kind =>
      (slots.set client_id (.Disconnecting (.SocketError kind)), [],
        .error ConnectionError.Disconnected)

/-- `Server::disconnect` (`src/server.rs` lines 250-265): ten best-effort
`Disconnect` frames, then the slot is marked `Disconnecting`. -/
def server_disconnect (slots : List ServerClientState) (client_id : Nat)
    (now : ℚ) (sendErr : Option Nat) :
    List ServerClientState × List Packet × Except ConnectionError Unit :=
  match get_connection_mut slots client_id with
  | .error e => (slots, [], .error e)
  | .ok vc =>
    match sendErr with
    | none =>
      (slots.set client_id (.Disconnecting ServerDisconnectReason.Disconnected),
       List.replicate 10 Packet.Disconnect, .ok ())
    | some kind =>
      (slots.set client_id (.Disconnecting (.SocketError kind)), [], .ok ())

/-! ## Theorems -/

/-- The claim C2 asserts `sequence_greater_than (s, (s + 2^15) mod 2^16)`
is false for every `s`; at `s = 0` the code returns `true`
(`32768 - 0 > 32767`), so the claim as stated is false. -/
theorem C2_bisection_counterexample :
    ¬ (sequence_greater_than 0 ((0 + 2 ^ 15) % 2 ^ 16) = false) := by decide

/-- C2 (amended): the wrap-safe comparison bisects the 16-bit space at
`HALF = 2^15 - 1 = 32767`: `greater_than ((s+1) % 2^16) s` is always true;
`greater_than s ((s + 2^15) % 2^16)` is false exactly for `s ≥ 2^15` (and
true for `s < 2^15`); and `greater_than a b` holds iff either `a > b` and
`a - b < 2^15`, or `a < b` and `b - a ≥ 2^15`. -/
theorem C2_bisection (s a b : Nat) (hs : s < 65536) (ha : a < 65536)
    (hb : b < 65536) :
    sequence_greater_than ((s + 1) % 65536) s = true
    ∧ (2 ^ 15 ≤ s → sequence_greater_than s ((s + 2 ^ 15) % 65536) = false)
    ∧ (s < 2 ^ 15 → sequence_greater_than s ((s + 2 ^ 15) % 65536) = true)
    ∧ (sequence_greater_than a b = true ↔
        (a > b ∧ a - b < 2 ^ 15) ∨ (a < b ∧ b - a ≥ 2 ^ 15)) := by
  refine ⟨?_, ?_, ?_, ?_⟩ <;>
    simp [sequence_greater_than] <;> omega

/-- Witness for `C2_bisection` at `s = 5`, `a = 7`, `b = 3`. -/
theorem C2_bisection_witness :
    sequence_greater_than ((5 + 1) % 65536) 5 = true
    ∧ (2 ^ 15 ≤ 5 → sequence_greater_than 5 ((5 + 2 ^ 15) % 65536) = false)
    ∧ (5 < 2 ^ 15 → sequence_greater_than 5 ((5 + 2 ^ 15) % 65536) = true)
    ∧ (sequence_greater_than 7 3 = true ↔
        (7 > 3 ∧ 7 - 3 < 2 ^ 15) ∨ (7 < 3 ∧ 3 - 7 ≥ 2 ^ 15)) :=
  C2_bisection 5 7 3 (by decide) (by decide) (by decide)

/-! ### List helper lemmas (for `getD`-based slot reasoning) -/

theorem getD_set_self {α : Type} (l : List (Option α)) (i : Nat) (v : Option α)
    (h : i < l.length) : (l.set i v).getD i none = v := by
  induction l generalizing i with
  | nil => simp at h
  | cons x xs ih =>
    cases i with
    | zero => rfl
    | succ n =>
      simp only [List.set, List.getD, List.getElem?_cons_succ]
      simpa [List.getD] using ih n (by simpa using h)

theorem getD_set_none_self {α : Type} (l : List (Option α)) (i : Nat) :
    (l.set i none).getD i none = none := by
  rcases Nat.lt_or_ge i l.length with h | h
  · exact getD_set_self l i none h
  · have : (l.set i none).length ≤ i := by simpa using h
    simp [List.getD, List.getElem?_eq_none this]

theorem getD_set_ne {α : Type} (l : List (Option α)) (i j : Nat) (v : Option α)
    (h : i ≠ j) : (l.set i v).getD j none = l.getD j none := by
  induction l generalizing i j with
  | nil => simp [List.set]
  | cons x xs ih =>
    cases i with
    | zero =>
      cases j with
      | zero => exact absurd rfl h
      | succ m => rfl
    | succ n =>
      cases j with
      | zero => rfl
      | succ m =>
        simp only [List.set, List.getD, List.getElem?_cons_succ]
        simpa [List.getD] using ih n m (by omega)

theorem contains_latest (t : SequenceNumberSet) :
    t.contains t.latest = true := by
  simp [SequenceNumberSet.contains]

theorem wsub_zero (a : Nat) (h : a < 65536) : wsub a 0 = a := by
  simp only [wsub]
  omega

theorem getLast?_filter_of_getLast? {α : Type} (p : α → Bool) (l : List α)
    (a : α) (h : l.getLast? = some a) (hp : p a = true) :
    (l.filter p).getLast? = some a := by
  have hrev : l.reverse.head? = some a := by
    rw [List.head?_reverse]; exact h
  rcases List.head?_eq_some_iff.mp hrev with ⟨rest, hrest⟩
  have : (l.filter p).reverse = a :: rest.filter p := by
    rw [← List.filter_reverse, hrest, List.filter_cons_of_pos hp]
  rw [← List.head?_reverse, this]
  rfl

/-- C7: once `insert` has been called, `contains latest` is true and the
iteration yields `latest` as its last element; this is preserved by every
further `insert` (the theorem quantifies over an arbitrary prior set). -/
theorem C7_ackset_latest_membership (t : SequenceNumberSet) (s : Nat)
    (hl : t.latest < 65536) (hs : s < 65536) :
    ((t.insert s).1.contains (t.insert s).1.latest = true)
    ∧ ((t.insert s).1.iterList.getLast? = some (t.insert s).1.latest) := by
  set t' := (t.insert s).1 with ht'
  have hlat : t'.latest < 65536 := by
    rw [ht']
    unfold SequenceNumberSet.insert
    rcases hg : sequence_greater_than s t.latest with _ | _
    · rcases hi : t.indexOf s with _ | j <;> simpa [hi] using hl
    · simpa using hs
  refine ⟨contains_latest t', ?_⟩
  unfold SequenceNumberSet.iterList
  apply getLast?_filter_of_getLast?
  · have hcand : ((List.range SequenceNumberSet.capacity).reverse).getLast?
        = some 0 := by decide
    rw [List.getLast?_map, hcand]
    simp [wsub_zero _ hlat]
  · exact contains_latest t'

/-- Witness for `C7_ackset_latest_membership` at the set `{3, 2}` with a
fresh insert of `7`. -/
theorem C7_ackset_latest_membership_witness :
    (((SequenceNumberSet.from_bitfield 3 1).insert 7).1.contains
        ((SequenceNumberSet.from_bitfield 3 1).insert 7).1.latest = true)
    ∧ (((SequenceNumberSet.from_bitfield 3 1).insert 7).1.iterList.getLast?
        = some ((SequenceNumberSet.from_bitfield 3 1).insert 7).1.latest) :=
  C7_ackset_latest_membership (SequenceNumberSet.from_bitfield 3 1) 7
    (by decide) (by decide)

/-! ### Arithmetic helpers for the wrapping operations -/

theorem wadd_small (a b : Nat) (h : a + b < 65536) : wadd a b = a + b := by
  simp only [wadd]; omega

theorem wsub_self_eq (a : Nat) (h : a < 65536) : wsub a a = 0 := by
  simp only [wsub]; omega

theorem wsub_small (a b : Nat) (hb : b ≤ a) (h : a < 65536) :
    wsub a b = a - b := by
  simp only [wsub]; omega

/-! ### Characterisation of `SequenceBuffer::insert` -/

theorem SequenceBuffer.trimLen_stop {T : Type} (e : List (Option T))
    (n l : Nat) (h : e.getD ((wadd (wsub n (l + 1)) 1) % e.length) none ≠ none) :
    SequenceBuffer.trimLen e n (l + 1) = l + 1 := by
  obtain ⟨v, hv⟩ := Option.ne_none_iff_exists'.mp h
  simp only [SequenceBuffer.trimLen]
  rw [hv]

theorem SequenceBuffer.trimLen_skip {T : Type} (e : List (Option T))
    (n l : Nat) (h : e.getD ((wadd (wsub n (l + 1)) 1) % e.length) none = none) :
    SequenceBuffer.trimLen e n (l + 1) = SequenceBuffer.trimLen e n l := by
  simp only [SequenceBuffer.trimLen]
  rw [h]

theorem SequenceBuffer.insert_eq {T : Type} (b : SequenceBuffer T) (d : T) :
    b.insert d =
      ((b.next_sequence_number,
        b.entries.getD (b.index b.next_sequence_number) none),
       { newest_sequence_number := b.next_sequence_number,
         len := SequenceBuffer.trimLen
             (b.entries.set (b.index b.next_sequence_number) none)
             b.newest_sequence_number b.len + 1,
         entries := b.entries.set (b.index b.next_sequence_number)
             (some d) }) := by
  have hgd : (b.entries.set (wadd b.newest_sequence_number 1
        % b.entries.length) none).getD (wadd b.newest_sequence_number 1
        % (b.entries.set (wadd b.newest_sequence_number 1
            % b.entries.length) none).length) none = none := by
    rw [List.length_set]; exact getD_set_none_self _ _
  simp only [SequenceBuffer.insert, SequenceBuffer.remove_at,
    SequenceBuffer.try_insert, SequenceBuffer.next_sequence_number,
    SequenceBuffer.index, List.length_set]
  rw [List.length_set] at hgd
  rw [hgd, List.set_set]

theorem getD_replicate_none {α : Type} (N j : Nat) :
    (List.replicate N (none : Option α)).getD j none = none := by
  rcases Nat.lt_or_ge j N with h | h
  · simp [List.getD, List.getElem?_replicate, h]
  · have : (List.replicate N (none : Option α)).length ≤ j := by simpa using h
    simp [List.getD, List.getElem?_eq_none this]

theorem insertRun_inv {T : Type} (N : Nat) (f : Nat → T) (hN : 0 < N)
    (hbound : N + 1 ≤ 32766) (k : Nat) (hk : k ≤ N) :
    (insertRun N f k).newest_sequence_number = k
    ∧ (insertRun N f k).len = k
    ∧ (insertRun N f k).entries.length = N
    ∧ ∀ j, j < N → (insertRun N f k).entries.getD j none =
        (if 1 ≤ j ∧ j ≤ k then some (f j)
         else if j = 0 ∧ k = N then some (f N) else none) := by
  induction k with
  | zero =>
    refine ⟨rfl, rfl, by simp [insertRun, SequenceBuffer.with_capacity], ?_⟩
    intro j hj
    rw [show (insertRun N f 0).entries = List.replicate N none from rfl,
      getD_replicate_none, if_neg (by omega : ¬ (1 ≤ j ∧ j ≤ 0)),
      if_neg (by omega : ¬ (j = 0 ∧ 0 = N))]
  | succ k ih =>
    obtain ⟨hnew, hlen, hN', hslots⟩ := ih (by omega)
    set bk := insertRun N f k with hbk
    have hnext : bk.next_sequence_number = k + 1 := by
      rw [SequenceBuffer.next_sequence_number, hnew, wadd_small _ _ (by omega)]
    have hidx : bk.index bk.next_sequence_number = (k + 1) % N := by
      rw [SequenceBuffer.index, hnext, hN']
    have hi0cases : ((k + 1) % N = k + 1 ∧ k + 1 < N)
        ∨ ((k + 1) % N = 0 ∧ k + 1 = N) := by
      rcases Nat.lt_or_ge (k + 1) N with h | h
      · exact Or.inl ⟨Nat.mod_eq_of_lt h, h⟩
      · have hEq : k + 1 = N := by omega
        exact Or.inr ⟨by rw [hEq, Nat.mod_self], hEq⟩
    -- the trim loop does not shrink `len`: the oldest entry is still live
    have htrim : SequenceBuffer.trimLen
        (bk.entries.set ((k + 1) % N) none) bk.newest_sequence_number bk.len
        = k := by
      rw [hlen, hnew]
      cases k with
      | zero => rfl
      | succ l =>
        have hN2 : 2 ≤ N := by
          rcases hi0cases with ⟨_, h⟩ | ⟨_, h⟩ <;> omega
        have hi0ne1 : (l + 1 + 1) % N ≠ 1 := by
          rcases hi0cases with ⟨he, hlt⟩ | ⟨he, heq⟩ <;> omega
        apply SequenceBuffer.trimLen_stop
        rw [wsub_self_eq _ (by omega), wadd_small _ _ (by omega)]
        have hlen2 : (bk.entries.set ((l + 1 + 1) % N) none).length = N := by
          simp [hN']
        rw [hlen2, Nat.mod_eq_of_lt hN2, getD_set_ne _ _ _ _ hi0ne1,
          hslots 1 hN2, if_pos (by omega)]
        simp
    rw [show insertRun N f (k + 1) = (bk.insert (f (k + 1))).2 from rfl,
      SequenceBuffer.insert_eq]
    refine ⟨hnext, ?_, by simp [hN'], ?_⟩
    · show SequenceBuffer.trimLen _ _ _ + 1 = k + 1
      rw [hidx, htrim]
    · intro j hj
      show (bk.entries.set (bk.index bk.next_sequence_number)
        (some (f (k + 1)))).getD j none = _
      rw [hidx]
      by_cases heq : j = (k + 1) % N
      · subst heq
        rw [getD_set_self _ _ _ (by rw [hN']; exact Nat.mod_lt _ hN)]
        rcases hi0cases with ⟨he, hlt⟩ | ⟨he, heq'⟩
        · rw [he, if_pos (by omega)]
        · rw [he, if_neg (by omega), if_pos (by omega), heq']
      · rw [getD_set_ne _ _ _ _ (fun h => heq h.symm), hslots j hj]
        rcases hi0cases with ⟨he, hlt⟩ | ⟨he, heq'⟩
        · have hjne : j ≠ k + 1 := by rw [he] at heq; omega
          rw [if_congr (by omega : (1 ≤ j ∧ j ≤ k) ↔ (1 ≤ j ∧ j ≤ k + 1))
            rfl rfl, if_neg (by omega : ¬ (j = 0 ∧ k = N)),
            if_neg (by omega : ¬ (j = 0 ∧ k + 1 = N))]
        · have hjne0 : j ≠ 0 := by rw [he] at heq; omega
          rw [if_congr (by omega : (1 ≤ j ∧ j ≤ k) ↔ (1 ≤ j ∧ j ≤ k + 1))
            rfl rfl, if_neg (by omega : ¬ (j = 0 ∧ k = N)),
            if_neg (by omega : ¬ (j = 0 ∧ k + 1 = N))]

theorem wadd_wsub_succ (n k : Nat) :
    wadd (wsub n (k + 1)) 1 = wsub n k := by
  simp only [wadd, wsub]
  omega

/-- Specification of the `remove_at` trim loop: the result never exceeds
the previous `len`, and every offset `k < l` whose slot is live stays
within the trimmed window. -/
theorem SequenceBuffer.trimLen_spec {T : Type} (e : List (Option T))
    (n l : Nat) :
    SequenceBuffer.trimLen e n l ≤ l
    ∧ ∀ k, k < l → e.getD ((wsub n k) % e.length) none ≠ none →
        k < SequenceBuffer.trimLen e n l := by
  induction l with
  | zero => exact ⟨Nat.le_refl 0, by omega⟩
  | succ l ih =>
    rcases hslot : e.getD ((wsub n l) % e.length) none with _ | v
    · have hskip : SequenceBuffer.trimLen e n (l + 1)
          = SequenceBuffer.trimLen e n l := by
        apply SequenceBuffer.trimLen_skip
        rw [wadd_wsub_succ]; exact hslot
      refine ⟨hskip ▸ Nat.le_succ_of_le ih.1, ?_⟩
      intro k hk hocc
      rcases Nat.lt_or_ge k l with h | h
      · exact hskip ▸ ih.2 k h hocc
      · have : k = l := by omega
        rw [this, hslot] at hocc
        exact absurd rfl hocc
    · have hstop : SequenceBuffer.trimLen e n (l + 1) = l + 1 := by
        apply SequenceBuffer.trimLen_stop
        rw [wadd_wsub_succ, hslot]
        simp
      refine ⟨?_, ?_⟩
      · rw [hstop]
      · intro k hk _
        rw [hstop]
        exact hk

theorem SequenceBuffer.remove_none_of {T : Type} (b : SequenceBuffer T)
    (s : Nat)
    (h : (sequence_greater_than s b.newest_sequence_number
        || sequence_less_than s b.oldest_sequence_number) = true) :
    b.remove s = (none, b) := by
  simp [SequenceBuffer.remove, h]

/-- C5: `SequenceBuffer::insert` assigns `newest + 1` and returns both the
new sequence and the entry displaced from the colliding slot, if any; and
after `N + 1` consecutive inserts into a fresh buffer of capacity `N`, the
`(N+1)`-th insert returns the first insertion's value as the displaced
entry, and a subsequent `remove` of the first insertion's sequence number
(`1`) returns none. -/
theorem C5_sendbuffer_displacement {T : Type} (b : SequenceBuffer T) (d : T)
    (N : Nat) (f : Nat → T) (hN : 0 < N) (hbound : N + 1 ≤ 32766) :
    ((b.insert d).1.1 = b.next_sequence_number
      ∧ (b.insert d).1.2
          = b.entries.getD (b.index b.next_sequence_number) none)
    ∧ ((insertRun N f N).insert (f (N + 1))).1.2 = some (f 1)
    ∧ ((((insertRun N f N).insert (f (N + 1))).2).remove 1).1 = none := by
  obtain ⟨hnew, hlen, hN', hslots⟩ :=
    insertRun_inv N f hN hbound N (Nat.le_refl N)
  set bN := insertRun N f N with hbN
  have hnext : bN.next_sequence_number = N + 1 := by
    rw [SequenceBuffer.next_sequence_number, hnew, wadd_small _ _ (by omega)]
  have hidx : bN.index bN.next_sequence_number = 1 % N := by
    rw [SequenceBuffer.index, hnext, hN', Nat.add_mod_left]
  have hprev : bN.entries.getD (1 % N) none = some (f 1) := by
    rcases Nat.lt_or_ge 1 N with h1 | h1
    · rw [Nat.mod_eq_of_lt h1, hslots 1 h1, if_pos (by omega)]
    · have hN1 : N = 1 := by omega
      rw [hN1, Nat.mod_self, hslots 0 hN, if_neg (by omega),
        if_pos (by omega), hN1]
  have hlenE : (bN.entries.set (1 % N) none).length = N := by simp [hN']
  -- after clearing slot `1 % N`, the trim loop shrinks `len` to `N - 1`
  have htrim2 : SequenceBuffer.trimLen (bN.entries.set (1 % N) none)
      bN.newest_sequence_number bN.len = N - 1 := by
    obtain ⟨hub, hlb⟩ := SequenceBuffer.trimLen_spec
      (bN.entries.set (1 % N) none) bN.newest_sequence_number bN.len
    have hupper : SequenceBuffer.trimLen (bN.entries.set (1 % N) none)
        bN.newest_sequence_number bN.len ≤ N - 1 := by
      have hskip : SequenceBuffer.trimLen (bN.entries.set (1 % N) none)
          bN.newest_sequence_number N
          = SequenceBuffer.trimLen (bN.entries.set (1 % N) none)
            bN.newest_sequence_number (N - 1) := by
        have hNsucc : N = (N - 1) + 1 := by omega
        rw [hNsucc]
        apply SequenceBuffer.trimLen_skip
        rw [wadd_wsub_succ, ← hNsucc, hnew, hlenE,
          wsub_small _ _ (by omega) (by omega),
          show N - (N - 1) = 1 from by omega]
        exact getD_set_none_self _ _
      rw [hlen, hskip]
      exact (SequenceBuffer.trimLen_spec _ _ _).1
    rcases Nat.lt_or_ge 1 N with h1 | h1
    · -- N ≥ 2: offset N - 2 (sequence 2) is still live
      have hocc : (bN.entries.set (1 % N) none).getD
          ((wsub bN.newest_sequence_number (N - 2))
            % (bN.entries.set (1 % N) none).length) none ≠ none := by
        rw [hlenE, hnew, wsub_small _ _ (by omega) (by omega),
          show N - (N - 2) = 2 from by omega]
        rcases Nat.lt_or_ge 2 N with h2 | h2
        · rw [Nat.mod_eq_of_lt h2,
            getD_set_ne _ _ _ _ (by rw [Nat.mod_eq_of_lt h1]; omega),
            hslots 2 h2, if_pos (by omega)]
          simp
        · have hN2 : N = 2 := by omega
          rw [hN2, Nat.mod_self,
            getD_set_ne _ _ _ _ (by decide : (1 : Nat) % 2 ≠ 0),
            hslots 0 hN, if_neg (by omega), if_pos (by omega)]
          simp
      have hlow := hlb (N - 2) (by omega) hocc
      omega
    · -- N = 1: the trimmed length is 0
      have hN1 : N = 1 := by omega
      omega
  -- part 1: general characterisation of `insert`
  refine ⟨⟨?_, ?_⟩, ?_, ?_⟩
  · rw [SequenceBuffer.insert_eq]
  · rw [SequenceBuffer.insert_eq]
  · rw [SequenceBuffer.insert_eq]
    show bN.entries.getD (bN.index bN.next_sequence_number) none = some (f 1)
    rw [hidx, hprev]
  · rw [SequenceBuffer.insert_eq]
    set b2 : SequenceBuffer T :=
      { newest_sequence_number := bN.next_sequence_number,
        len := SequenceBuffer.trimLen
            (bN.entries.set (bN.index bN.next_sequence_number) none)
            bN.newest_sequence_number bN.len + 1,
        entries := bN.entries.set (bN.index bN.next_sequence_number)
            (some (f (N + 1))) } with hb2
    have hb2new : b2.newest_sequence_number = N + 1 := hnext
    have hb2len : b2.len = N := by
      show SequenceBuffer.trimLen _ _ _ + 1 = N
      rw [hidx, htrim2]
      omega
    have hb2old : b2.oldest_sequence_number = 2 := by
      rw [SequenceBuffer.oldest_sequence_number, hb2new, hb2len,
        wsub_small _ _ (by omega) (by omega),
        show N + 1 - N = 1 from by omega, wadd_small _ _ (by omega)]
    have hcond : (sequence_greater_than 1 b2.newest_sequence_number
        || sequence_less_than 1 b2.oldest_sequence_number) = true := by
      rw [hb2old, show sequence_less_than 1 2 = true from by decide,
        Bool.or_true]
    rw [SequenceBuffer.remove_none_of b2 1 hcond]

/-- Witness for `C5_sendbuffer_displacement` with capacity `4` and the
identity fill, mirroring the repository's own `test_insert_remove` test. -/
theorem C5_sendbuffer_displacement_witness :
    (((SequenceBuffer.with_capacity 4 : SequenceBuffer Nat).insert 9).1.1
        = (SequenceBuffer.with_capacity 4 :
            SequenceBuffer Nat).next_sequence_number
      ∧ (((SequenceBuffer.with_capacity 4 :
            SequenceBuffer Nat).insert 9).1.2
          = (SequenceBuffer.with_capacity 4 :
              SequenceBuffer Nat).entries.getD
              ((SequenceBuffer.with_capacity 4 : SequenceBuffer Nat).index
                (SequenceBuffer.with_capacity 4 :
                  SequenceBuffer Nat).next_sequence_number) none))
    ∧ ((insertRun 4 (fun i => i) 4).insert 5).1.2 = some 1
    ∧ ((((insertRun 4 (fun i => i) 4).insert 5).2).remove 1).1 = none := by
  have h := C5_sendbuffer_displacement
    (SequenceBuffer.with_capacity 4 : SequenceBuffer Nat) 9 4 (fun i => i)
    (by decide) (by decide)
  simpa using h

/-- C10: parsing is total at the public interface: every input byte slice
and salt yields either `ok` of a packet or a parse error — never a panic
or an out-of-bounds read (every slice access in the embedding is a guarded
`read_*`); in particular any frame shorter than the 4-byte checksum plus
kind byte yields an error. -/
theorem C10_parse_total (data salt : List Nat) :
    ((∃ p, Packet.parse data salt = .ok p)
      ∨ (∃ e, Packet.parse data salt = .error e))
    ∧ (data.length < 5 →
        Packet.parse data salt = .error .unexpectedEof
        ∨ Packet.parse data salt = .error .badChecksum) := by
  constructor
  · cases h : Packet.parse data salt with
    | ok p => exact Or.inl ⟨p, rfl⟩
    | error e => exact Or.inr ⟨e, rfl⟩
  · intro hlen
    rcases data with _ | ⟨a, _ | ⟨b, _ | ⟨c, _ | ⟨d, _ | ⟨e, rest⟩⟩⟩⟩⟩
    · left; rfl
    · left; rfl
    · left; rfl
    · left; rfl
    · simp only [Packet.parse, read_u32, read_u16, read_u8]
      split
      · left; rfl
      · right; rfl
    · simp at hlen
      omega

/-- Witness for `C10_parse_total`: a three-byte truncated frame errors. -/
theorem C10_parse_total_witness :
    Packet.parse [1, 2, 3] [2] = .error .unexpectedEof
    ∨ Packet.parse [1, 2, 3] [2] = .error .badChecksum :=
  (C10_parse_total [1, 2, 3] [2]).2 (by decide)

/-! ### Round-trip lemmas for the framing -/

theorem read_u16_be16 (v : Nat) (r : List Nat) (h : v < 65536) :
    read_u16 (be16 v ++ r) = some (v, r) := by
  simp only [be16, List.cons_append, List.nil_append, read_u16, read_u8]
  have : v / 256 % 256 * 256 + v % 256 = v := by omega
  rw [this]

theorem read_u32_be32 (v : Nat) (r : List Nat) (h : v < 4294967296) :
    read_u32 (be32 v ++ r) = some (v, r) := by
  simp only [be32, List.append_assoc, read_u32]
  rw [read_u16_be16 _ _ (by omega)]
  dsimp only
  rw [read_u16_be16 _ _ (by omega)]
  dsimp only
  have : v / 65536 * 65536 + v % 65536 = v := by omega
  rw [this]

theorem crc32_foldl_lt (l : List Nat) (c : Nat) (hc : c < 4294967296)
    (hl : ∀ b ∈ l, b < 256) :
    l.foldl (fun crc b => crc32_update crc b) c < 4294967296 := by
  induction l generalizing c with
  | nil => exact hc
  | cons x xs ih =>
    refine ih _ ?_ (fun b hb => hl b (List.mem_cons_of_mem _ hb))
    have hx : x < 256 := hl x (List.mem_cons_self _ _)
    have hxor : c ^^^ x < 4294967296 := by
      have := Nat.xor_lt_two_pow (n := 32) (by simpa using hc)
        (by omega : x < 2 ^ 32)
      simpa using this
    unfold crc32_update
    have hstep : ∀ (rs : List Nat) (s : Nat), s < 4294967296 →
        rs.foldl (fun cc _ => if cc % 2 = 1 then cc / 2 ^^^ 0xEDB88320
          else cc / 2) s < 4294967296 := by
      intro rs
      induction rs with
      | nil => intro s hs; exact hs
      | cons y ys ihy =>
        intro s hs
        refine ihy _ ?_
        show (if s % 2 = 1 then s / 2 ^^^ 0xEDB88320 else s / 2) < 4294967296
        split
        · have := Nat.xor_lt_two_pow (n := 32)
            (by omega : s / 2 < 2 ^ 32) (by norm_num : 0xEDB88320 < 2 ^ 32)
          simpa using this
        · omega
    exact hstep _ _ hxor

theorem crc32_lt (l : List Nat) (h : ∀ b ∈ l, b < 256) :
    crc32 l < 4294967296 := by
  unfold crc32
  have hf := crc32_foldl_lt l 0xFFFFFFFF (by norm_num) h
  have := Nat.xor_lt_two_pow (n := 32) (by simpa using hf)
    (by norm_num : 0xFFFFFFFF < 2 ^ 32)
  simpa using this

theorem mem_be16_lt (v b : Nat) (h : b ∈ be16 v) : b < 256 := by
  simp only [be16, List.mem_cons, List.not_mem_nil, or_false] at h
  rcases h with h | h <;> omega

theorem mem_be32_lt (v b : Nat) (h : b ∈ be32 v) : b < 256 := by
  simp only [be32, List.mem_append] at h
  rcases h with h | h <;> exact mem_be16_lt _ _ h

theorem body_bytes_lt (p : Packet) (hv : p.valid) :
    ∀ b ∈ p.body, b < 256 := by
  cases p with
  | ConnectionRequest => intro b hb; simp [Packet.body] at hb; omega
  | ConnectionAccepted id =>
    intro b hb
    simp only [Packet.body, List.mem_cons] at hb
    rcases hb with h | h
    · omega
    · exact mem_be16_lt _ _ h
  | ConnectionDenied => intro b hb; simp [Packet.body] at hb; omega
  | KeepAlive ack =>
    intro b hb
    simp only [Packet.body, List.mem_cons, List.mem_append] at hb
    rcases hb with h | h | h
    · omega
    · exact mem_be16_lt _ _ h
    · exact mem_be32_lt _ _ h
  | Disconnect => intro b hb; simp [Packet.body] at hb; omega
  | Payload sequence ack data =>
    intro b hb
    simp only [Packet.body, List.mem_cons, List.mem_append] at hb
    rcases hb with h | h | h | h | h | h
    · omega
    · exact mem_be16_lt _ _ h
    · exact mem_be16_lt _ _ h
    · exact mem_be32_lt _ _ h
    · exact mem_be16_lt _ _ h
    · exact hv.2.2.2.2 b h

theorem parse_frame (salt bd : List Nat) (c : Nat) (hc : c < 4294967296) :
    Packet.parse (be32 c ++ bd) salt =
      if c == crc32 (salt ++ bd) then Packet.parseBody bd
      else .error .badChecksum := by
  simp only [Packet.parse]
  rw [read_u32_be32 _ _ hc]

theorem parseBody_body (p : Packet) (hv : p.valid) :
    Packet.parseBody p.body = .ok p := by
  cases p with
  | ConnectionRequest => rfl
  | ConnectionDenied => rfl
  | Disconnect => rfl
  | ConnectionAccepted id =>
    have hid : id < 65536 := hv
    dsimp only [Packet.body, Packet.parseBody, read_u8]
    rw [show be16 id = be16 id ++ [] from (List.append_nil _).symm,
      read_u16_be16 _ _ hid]
    norm_num
  | KeepAlive ack =>
    obtain ⟨h1, h2⟩ := hv
    dsimp only [Packet.body, Packet.parseBody, read_u8]
    rw [read_u16_be16 _ _ h1]
    dsimp only
    rw [show be32 ack.bitfield = be32 ack.bitfield ++ []
        from (List.append_nil _).symm,
      read_u32_be32 _ _ h2]
    norm_num
    rfl
  | Payload sequence ack data =>
    obtain ⟨h1, h2, h3, h4, h5⟩ := hv
    dsimp only [Packet.body, Packet.parseBody, read_u8]
    rw [read_u16_be16 _ _ h1]
    dsimp only
    rw [read_u16_be16 _ _ h2]
    dsimp only
    rw [read_u32_be32 _ _ h3]
    dsimp only
    rw [read_u16_be16 _ _ (by omega : data.length % 65536 < 65536)]
    dsimp only
    rw [Nat.mod_eq_of_lt (by omega : data.length < 65536)]
    norm_num
    rfl

/-- C4 (amended): with the same salt the round trip is exact for every
valid packet; with a different salt the parse fails with `BadChecksum`
whenever the CRC-32 of the second salt over the frame body differs from
the stored checksum.  (Distinct salts may collide in CRC-32 — see the
counterexample — so the unconditional claim is false.) -/
theorem C4_frame_roundtrip (p : Packet) (salt salt2 : List Nat)
    (hv : p.valid) (hs : ∀ b ∈ salt, b < 256) :
    p.write salt = some (be32 (crc32 (salt ++ p.body)) ++ p.body)
    ∧ Packet.parse (be32 (crc32 (salt ++ p.body)) ++ p.body) salt = .ok p
    ∧ (crc32 (salt2 ++ p.body) ≠ crc32 (salt ++ p.body) →
        Packet.parse (be32 (crc32 (salt ++ p.body)) ++ p.body) salt2
          = .error .badChecksum) := by
  have hbytes : ∀ b ∈ salt ++ p.body, b < 256 := by
    intro b hb
    rcases List.mem_append.mp hb with h | h
    · exact hs b h
    · exact body_bytes_lt p hv b h
  have hcrc : crc32 (salt ++ p.body) < 4294967296 := crc32_lt _ hbytes
  have hfit : 4 + p.body.length ≤ MAX_PACKET_SIZE := by
    cases p with
    | Payload sequence ack data =>
      obtain ⟨h1, h2, h3, h4, h5⟩ := hv
      simp only [Packet.body, be16, be32, MAX_PACKET_SIZE, List.length_cons,
        List.length_append]
      simp
      omega
    | ConnectionRequest => simp [Packet.body, MAX_PACKET_SIZE]
    | ConnectionDenied => simp [Packet.body, MAX_PACKET_SIZE]
    | Disconnect => simp [Packet.body, MAX_PACKET_SIZE]
    | ConnectionAccepted id => simp [Packet.body, be16, MAX_PACKET_SIZE]
    | KeepAlive ack => simp [Packet.body, be16, be32, MAX_PACKET_SIZE]
  refine ⟨?_, ?_, ?_⟩
  · simp only [Packet.write]
    rw [if_pos hfit]
  · rw [parse_frame _ _ _ hcrc, beq_self_eq_true, if_pos rfl]
    exact parseBody_body p hv
  · intro hne
    rw [parse_frame _ _ _ hcrc, if_neg]
    simp only [beq_iff_eq]
    exact fun h => hne h.symm

/-- Witness for `C4_frame_roundtrip`: a concrete Payload packet with salt
`[65]`, parsing back exactly, and rejected under the CRC-distinct salt
`[66]`. -/
theorem C4_frame_roundtrip_witness :
    Packet.parse
        (be32 (crc32 ([65] ++ (Packet.Payload 1 (.from_bitfield 2 5)
          [170, 187]).body))
          ++ (Packet.Payload 1 (.from_bitfield 2 5) [170, 187]).body)
        [65] = .ok (Packet.Payload 1 (.from_bitfield 2 5) [170, 187])
    ∧ Packet.parse
        (be32 (crc32 ([65] ++ (Packet.Payload 1 (.from_bitfield 2 5)
          [170, 187]).body))
          ++ (Packet.Payload 1 (.from_bitfield 2 5) [170, 187]).body)
        [66] = .error .badChecksum :=
  ⟨(C4_frame_roundtrip (Packet.Payload 1 (.from_bitfield 2 5) [170, 187])
      [65] [66] (by decide) (by decide)).2.1,
   (C4_frame_roundtrip (Packet.Payload 1 (.from_bitfield 2 5) [170, 187])
      [65] [66] (by decide) (by decide)).2.2 (by decide)⟩

/-- The claim C4 asserts that parsing a written frame with a *different*
salt always yields `BadChecksum`; the salts `[0,0,0,0,0]` and
`[65,6,113,219,1]` (the reflected CRC-32 polynomial) produce identical
CRC-32 states, so the frame written under the first parses successfully
under the second. -/
theorem C4_salt_collision_counterexample :
    (([0, 0, 0, 0, 0] : List Nat) ≠ [65, 6, 113, 219, 1])
    ∧ Packet.parse
        ((Packet.write .ConnectionRequest [0, 0, 0, 0, 0]).getD [])
        [65, 6, 113, 219, 1] = .ok .ConnectionRequest := by
  exact ⟨by decide, by decide⟩

theorem wadd_lt (a b : Nat) : wadd a b < 65536 := by
  simp only [wadd]
  omega

theorem wadd_wadd (a b d : Nat) : wadd (wadd a b) d = wadd a (b + d) := by
  simp only [wadd]
  omega

theorem on_receive_loop_last (n : Nat) :
    ∀ (c : MessageChannel) (p : List Nat),
      (MessageChannel.on_receive_loop n c p).1.last_read_message
        = c.last_read_message := by
  induction n with
  | zero => intro c p; rfl
  | succ n ih =>
    intro c p
    rcases h1 : read_u16 p with _ | mp
    · simp [MessageChannel.on_receive_loop, h1]
    · obtain ⟨msg_id, p1⟩ := mp
      rcases h2 : read_u8 p1 with _ | sp
      · simp [MessageChannel.on_receive_loop, h1, h2]
      · obtain ⟨size, p2⟩ := sp
        rcases hc : (sequence_less_than c.last_read_message msg_id
            && !(c.incoming_messages.exists_seq msg_id)) with _ | _
        · rcases h3 : MessageChannel.read_exact p2 size with _ | bp
          · simp [MessageChannel.on_receive_loop, h1, h2, hc, h3]
          · obtain ⟨buf, p3⟩ := bp
            simp [MessageChannel.on_receive_loop, h1, h2, hc, h3, ih]
        · rcases h3 : MessageChannel.read_exact p2 size with _ | bp
          · simp [MessageChannel.on_receive_loop, h1, h2, hc, h3]
          · obtain ⟨buf, p3⟩ := bp
            simp [MessageChannel.on_receive_loop, h1, h2, hc, h3, ih]

theorem on_receive_last (c : MessageChannel) (p : List Nat) :
    (c.on_receive p).1.last_read_message = c.last_read_message := by
  unfold MessageChannel.on_receive
  rcases h : read_u8 p with _ | lp
  · rfl
  · obtain ⟨len, p1⟩ := lp
    exact on_receive_loop_last len c p1

theorem receive_message_eq (c : MessageChannel) :
    c.receive_message =
      (if c.incoming_messages.exists_seq (wadd c.last_read_message 1) then
        (some (c.incoming_messages.entries.getD
            (c.incoming_messages.index (wadd c.last_read_message 1)) default),
         { c with
            incoming_messages :=
              (c.incoming_messages.remove (wadd c.last_read_message 1)).2,
            last_read_message := wadd c.last_read_message 1 })
      else (none, c)) := by
  unfold MessageChannel.receive_message SequenceBuffer2.remove
  rcases hex : c.incoming_messages.exists_seq (wadd c.last_read_message 1)
    with _ | _
  · simp [hex]
  · simp [hex]

theorem runChannel_spec (ops : List ChannelOp) :
    ∀ c : MessageChannel, c.last_read_message < 65536 →
      (runChannel c ops).1.last_read_message
          = wadd c.last_read_message (runChannel c ops).2.length
      ∧ (runChannel c ops).2
          = (List.range (runChannel c ops).2.length).map
              (fun i => wadd c.last_read_message (i + 1)) := by
  induction ops with
  | nil =>
    intro c hc
    refine ⟨?_, rfl⟩
    simp only [runChannel, wadd, List.length_nil]
    omega
  | cons op ops ih =>
    intro c hc
    cases op with
    | recv p =>
      have hl := on_receive_last c p
      have hrun : runChannel c (ChannelOp.recv p :: ops)
          = runChannel (c.on_receive p).1 ops := rfl
      rw [hrun, ← hl]
      exact ih _ (by rw [hl]; exact hc)
    | poll =>
      rcases hex : c.incoming_messages.exists_seq (wadd c.last_read_message 1)
        with _ | _
      · -- nothing deliverable: state unchanged, nothing recorded
        have hrm : c.receive_message = (none, c) := by
          rw [receive_message_eq, if_neg]
          simp [hex]
        have hrun : runChannel c (ChannelOp.poll :: ops)
            = runChannel c ops := by
          show (match c.receive_message.1 with
            | some _ => ((runChannel c.receive_message.2 ops).1,
                wadd c.last_read_message 1
                  :: (runChannel c.receive_message.2 ops).2)
            | none => ((runChannel c.receive_message.2 ops).1,
                (runChannel c.receive_message.2 ops).2)) = runChannel c ops
          rw [hrm]
        rw [hrun]
        exact ih c hc
      · -- successful delivery of id `last + 1`
        set next := wadd c.last_read_message 1 with hnext
        set c' : MessageChannel :=
          { c with
             incoming_messages := (c.incoming_messages.remove next).2,
             last_read_message := next } with hc'
        have hrm : c.receive_message =
            (some (c.incoming_messages.entries.getD
              (c.incoming_messages.index next) default), c') := by
          rw [receive_message_eq, if_pos]
          simp [hex]
        have hrun : runChannel c (ChannelOp.poll :: ops)
            = ((runChannel c' ops).1, next :: (runChannel c' ops).2) := by
          show (match c.receive_message.1 with
            | some _ => ((runChannel c.receive_message.2 ops).1,
                wadd c.last_read_message 1
                  :: (runChannel c.receive_message.2 ops).2)
            | none => ((runChannel c.receive_message.2 ops).1,
                (runChannel c.receive_message.2 ops).2)) = _
          rw [hrm]
        have hlast' : c'.last_read_message = next := rfl
        obtain ⟨ih1, ih2⟩ := ih c' (by rw [hlast']; exact wadd_lt _ _)
        rw [hrun]
        constructor
        · show (runChannel c' ops).1.last_read_message
            = wadd c.last_read_message ((runChannel c' ops).2.length + 1)
          rw [ih1, hlast', hnext, wadd_wadd]
          congr 1
          omega
        · show next :: (runChannel c' ops).2
            = (List.range ((runChannel c' ops).2.length + 1)).map
                (fun i => wadd c.last_read_message (i + 1))
          rw [List.range_succ_eq_map, List.map_cons, List.map_map]
          congr 1
          rw [ih2, hlast', hnext]
          simp only [List.length_map, List.length_range]
          apply List.map_congr_left
          intro i hi
          show wadd (wadd c.last_read_message 1) (i + 1)
            = wadd c.last_read_message (i + 1 + 1)
          rw [wadd_wadd]
          congr 1
          omega

/-- C1: `receive_message` returns the buffered message with id
`last_read_message + 1` and advances `last_read_message` exactly when such
a message is buffered, and returns none otherwise; consequently, over any
sequence of `on_receive` and `receive_message` calls from a fresh channel,
the delivered ids are `1, 2, 3, …` — consecutive, strictly increasing
(while fewer than `2^16` messages have been delivered, i.e. before the
`u16` id space wraps), so no id is delivered twice and id `k` never
precedes `k - 1`. -/
theorem C1_reliable_in_order_delivery (c : MessageChannel)
    (ops : List ChannelOp) :
    (c.receive_message =
      (if c.incoming_messages.exists_seq (wadd c.last_read_message 1) then
        (some (c.incoming_messages.entries.getD
            (c.incoming_messages.index (wadd c.last_read_message 1)) default),
         { c with
            incoming_messages :=
              (c.incoming_messages.remove (wadd c.last_read_message 1)).2,
            last_read_message := wadd c.last_read_message 1 })
      else (none, c)))
    ∧ ((runChannel MessageChannel.new ops).2
        = (List.range (runChannel MessageChannel.new ops).2.length).map
            (fun i => (i + 1) % 65536))
    ∧ ((runChannel MessageChannel.new ops).2.length < 65536 →
        (runChannel MessageChannel.new ops).2
          = List.range' 1 (runChannel MessageChannel.new ops).2.length) := by
  have hspec := runChannel_spec ops MessageChannel.new (by decide)
  have hids : (runChannel MessageChannel.new ops).2
      = (List.range (runChannel MessageChannel.new ops).2.length).map
          (fun i => (i + 1) % 65536) := by
    rw [hspec.2]
    simp only [List.length_map, List.length_range]
    apply List.map_congr_left
    intro i hi
    show wadd 0 (i + 1) = (i + 1) % 65536
    simp only [wadd]
    omega
  refine ⟨receive_message_eq c, hids, ?_⟩
  intro hk
  rw [hids]
  simp only [List.length_map, List.length_range]
  rw [List.range'_eq_map_range]
  apply List.map_congr_left
  intro i hi
  rw [List.mem_range] at hi
  omega

/-- Witness for `C1_reliable_in_order_delivery`: feed one composite packet
carrying messages 1 (`[170]`) and 2 (`[187]`), poll three times; the two
successful polls deliver ids 1 and 2 in order. -/
theorem C1_reliable_in_order_delivery_witness :
    (runChannel MessageChannel.new
        [ChannelOp.recv [2, 0, 1, 1, 170, 0, 2, 1, 187],
         ChannelOp.poll, ChannelOp.poll, ChannelOp.poll]).2
      = List.range' 1 (runChannel MessageChannel.new
        [ChannelOp.recv [2, 0, 1, 1, 170, 0, 2, 1, 187],
         ChannelOp.poll, ChannelOp.poll, ChannelOp.poll]).2.length :=
  (C1_reliable_in_order_delivery MessageChannel.new
      [ChannelOp.recv [2, 0, 1, 1, 170, 0, 2, 1, 187],
       ChannelOp.poll, ChannelOp.poll, ChannelOp.poll]).2.2 (by decide)

/-! ## C3: `handle_ack` and the missing lost-notification -/

/-- C3 (code evaluated at the failing input): a fresh connection sends one
packet (transport sequence 1); an ack set with `latest = 50` arrives, so
sequence 1 is strictly older than `latest - 40` and is drained as lost.
The code removes it and bumps `packet_loss`, but the callback list stays
empty — `handle_ack`'s one-argument callback is never invoked for lost
packets, although the claim (and the two-argument callbacks passed by
`src/client.rs` line 175 / `src/server.rs` line 210, which enqueue
`PacketLost` events) requires a lost notification. -/
theorem C3_handle_ack_drops_lost_notification :
    (((VirtualConnection.new 7 0 0).next_sequence_number 0).2.handle_ack
        (SequenceNumberSet.from_bitfield 50 0) 1).2 = []
    ∧ (((VirtualConnection.new 7 0 0).next_sequence_number 0).2.handle_ack
        (SequenceNumberSet.from_bitfield 50 0) 1).1.sent_packets.is_empty
        = true
    ∧ ((((VirtualConnection.new 7 0 0).next_sequence_number
          0).2.sent_packets.drain_older
            (wsub 50 PACKET_LOST_CUTOFF)).1.map Prod.fst = [1]) := by
  refine ⟨by decide, by decide, by decide⟩

/-! ## C6: ack retirement in the reliable channel -/

theorem iterList_mem {T : Type} (b : SequenceBuffer T) (p : Nat × T) :
    p ∈ b.iterList ↔ ∃ k, k < b.len
      ∧ p.1 = wsub b.newest_sequence_number k
      ∧ b.entries.getD (b.index p.1) none = some p.2 := by
  unfold SequenceBuffer.iterList
  rw [List.mem_filterMap]
  constructor
  · rintro ⟨i, hi, hf⟩
    rw [List.mem_range] at hi
    rcases hgd : b.entries.getD
        (b.index (wsub b.newest_sequence_number (b.len - (i + 1)))) none
      with _ | d
    · rw [hgd] at hf
      exact absurd hf (by simp)
    · rw [hgd] at hf
      have hpd := Option.some.inj hf
      refine ⟨b.len - (i + 1), by omega, ?_, ?_⟩
      · rw [← hpd]
      · rw [← hpd]
        exact hgd
  · rintro ⟨k, hk, h1, h2⟩
    refine ⟨b.len - 1 - k, by rw [List.mem_range]; omega, ?_⟩
    have hke : b.len - (b.len - 1 - k + 1) = k := by omega
    rw [hke, ← h1, h2]

theorem sgt_wsub_newest (a k : Nat) (ha : a < 65536) (hk : k ≤ 32767) :
    sequence_greater_than (wsub a k) a = false := by
  simp [sequence_greater_than, wsub]
  omega

theorem slt_wsub_oldest (a k l : Nat) (ha : a < 65536) (hk : k < l)
    (hl : l ≤ 32767) :
    sequence_less_than (wsub a k) (wadd (wsub a l) 1) = false := by
  simp [sequence_less_than, sequence_greater_than, wadd, wsub]
  omega

theorem wsub_slot_inj (a k j : Nat) (ha : a < 65536) (hk : k < 256)
    (hj : j < 256) (h : wsub a k % 256 = wsub a j % 256) : k = j := by
  simp only [wsub] at h
  omega

/-- A `remove` of a live window sequence passes the wrap-safe range check
and reaches `remove_at`. -/
theorem remove_in_window {T : Type} (b : SequenceBuffer T) (k : Nat)
    (ha : b.newest_sequence_number < 65536) (hk : k < b.len)
    (hl : b.len ≤ 256) :
    b.remove (wsub b.newest_sequence_number k)
      = b.remove_at (b.index (wsub b.newest_sequence_number k)) := by
  unfold SequenceBuffer.remove
  rw [if_neg]
  rw [sgt_wsub_newest _ _ ha (by omega)]
  rw [show b.oldest_sequence_number
      = wadd (wsub b.newest_sequence_number b.len) 1 from rfl]
  rw [slt_wsub_oldest _ _ _ ha hk (by omega)]
  simp

theorem remove_at_snd {T : Type} (b : SequenceBuffer T) (i : Nat) :
    (b.remove_at i).2 = { b with
      entries := b.entries.set i none,
      len := SequenceBuffer.trimLen (b.entries.set i none)
        b.newest_sequence_number b.len } := rfl

/-- Effect of `on_ack`'s removal pass: removing a list of live window
sequences (with pairwise-distinct slots) from a capacity-256 buffer clears
exactly their slots, leaves the others untouched, never grows `len`, and
keeps every remaining live offset inside the (possibly trimmed) window. -/
theorem onack_fold_spec {T : Type} (newest : Nat) (hn : newest < 65536)
    (len0 : Nat) (hlen0 : len0 ≤ 256) :
    ∀ (ids : List Nat) (b : SequenceBuffer T),
      b.newest_sequence_number = newest →
      b.entries.length = 256 →
      b.len ≤ len0 →
      (∀ k, k < len0 →
        b.entries.getD (wsub newest k % 256) none ≠ none → k < b.len) →
      (∀ id ∈ ids, ∃ k, k < len0 ∧ id = wsub newest k
        ∧ b.entries.getD (wsub newest k % 256) none ≠ none) →
      ids.Pairwise (fun x y => x % 256 ≠ y % 256) →
      ((ids.foldl (fun bb id => (bb.remove id).2) b).newest_sequence_number
          = newest
      ∧ (ids.foldl (fun bb id => (bb.remove id).2) b).entries.length = 256
      ∧ (ids.foldl (fun bb id => (bb.remove id).2) b).len ≤ b.len
      ∧ (∀ k, k < len0 →
          (ids.foldl (fun bb id => (bb.remove id).2) b).entries.getD
            (wsub newest k % 256) none ≠ none →
          k < (ids.foldl (fun bb id => (bb.remove id).2) b).len)
      ∧ (∀ id ∈ ids,
          (ids.foldl (fun bb id => (bb.remove id).2) b).entries.getD
            (id % 256) none = none)
      ∧ (∀ j, j < 256 → (∀ id ∈ ids, j ≠ id % 256) →
          (ids.foldl (fun bb id => (bb.remove id).2) b).entries.getD j none
            = b.entries.getD j none)) := by
  intro ids
  induction ids with
  | nil =>
    intro b hbn hb256 hble hinv _ _
    exact ⟨hbn, hb256, Nat.le_refl _, hinv, by simp, fun j _ _ => rfl⟩
  | cons id rest ih =>
    intro b hbn hb256 hble hinv hlive hpair
    obtain ⟨k, hk, hid, hocc⟩ := hlive id (List.mem_cons_self _ _)
    have hklen : k < b.len := hinv k hk hocc
    have hidx : b.index id = id % 256 := by
      rw [SequenceBuffer.index, hb256]
    have hslot_id : id % 256 = wsub newest k % 256 := by rw [hid]
    -- the removal reaches remove_at
    have hnewb : b.newest_sequence_number < 65536 := by rw [hbn]; exact hn
    have hrm : (b.remove id).2 = { b with
        entries := b.entries.set (id % 256) none,
        len := SequenceBuffer.trimLen (b.entries.set (id % 256) none)
          b.newest_sequence_number b.len } := by
      have hrw : b.remove id = b.remove_at (b.index id) := by
        rw [hid, ← hbn]
        exact remove_in_window b k hnewb hklen (hble.trans hlen0)
      rw [hrw, remove_at_snd, hidx]
    have hb1n : (b.remove id).2.newest_sequence_number = newest := by
      rw [hrm]
      exact hbn
    have hb1256 : (b.remove id).2.entries.length = 256 := by
      rw [hrm]
      simp [hb256]
    have htr := SequenceBuffer.trimLen_spec (b.entries.set (id % 256) none)
      b.newest_sequence_number b.len
    have hb1le : (b.remove id).2.len ≤ b.len := by rw [hrm]; exact htr.1
    have hb1entries : (b.remove id).2.entries
        = b.entries.set (id % 256) none := by rw [hrm]
    have hb1inv : ∀ k', k' < len0 →
        (b.remove id).2.entries.getD (wsub newest k' % 256) none ≠ none →
        k' < (b.remove id).2.len := by
      intro k' hk' hocc'
      rw [hb1entries] at hocc'
      have hocc_b : b.entries.getD (wsub newest k' % 256) none ≠ none := by
        intro hcontra
        rcases Nat.decEq (id % 256) (wsub newest k' % 256) with hne | heq
        · rw [getD_set_ne _ _ _ _ hne] at hocc'
          exact hocc' hcontra
        · rw [heq, getD_set_none_self] at hocc'
          exact hocc' rfl
      have hkb : k' < b.len := hinv k' hk' hocc_b
      have h2 := htr.2 k' hkb
      rw [show (b.entries.set (id % 256) none).length = 256 from
        by simp [hb256]] at h2
      rw [← hbn] at hocc'
      rw [hrm]
      exact h2 hocc'
    have hrestlive : ∀ id' ∈ rest, ∃ k', k' < len0 ∧ id' = wsub newest k'
        ∧ (b.remove id).2.entries.getD (wsub newest k' % 256) none
          ≠ none := by
      intro id' hid'
      obtain ⟨k', hk', hideq, hocc'⟩ := hlive id' (List.mem_cons_of_mem _ hid')
      refine ⟨k', hk', hideq, ?_⟩
      rw [hb1entries, getD_set_ne]
      · exact hocc'
      · intro hcontra
        have hcc : id % 256 = id' % 256 := by rw [hcontra, hideq]
        exact (List.pairwise_cons.mp hpair).1 id' hid' hcc
    have hfold : (id :: rest).foldl (fun bb id => (bb.remove id).2) b
        = rest.foldl (fun bb id => (bb.remove id).2) (b.remove id).2 := by
      rw [List.foldl_cons]
    obtain ⟨f1, f2, f3, f4, f5, f6⟩ := ih (b.remove id).2 hb1n hb1256
      (hb1le.trans hble) hb1inv hrestlive (List.pairwise_cons.mp hpair).2
    rw [hfold]
    refine ⟨f1, f2, f3.trans hb1le, f4, ?_, ?_⟩
    · intro id' hid'
      rcases List.mem_cons.mp hid' with heq | hmem
      · subst heq
        rw [f6 (id' % 256) (Nat.mod_lt _ (by norm_num)) ?_]
        · rw [hb1entries]
          exact getD_set_none_self _ _
        · intro id2 hid2 hcontra
          exact (List.pairwise_cons.mp hpair).1 id2 hid2 hcontra
      · exact f5 id' hmem
    · intro j hj hnot
      rw [f6 j hj (fun id2 hid2 => hnot id2 (List.mem_cons_of_mem _ hid2)),
        hb1entries, getD_set_ne]
      intro hcontra
      exact hnot id (List.mem_cons_self _ _) hcontra.symm

/-- Distinct window positions of a capacity-256 buffer live in distinct
slots, so the iterator's pairs have pairwise-distinct slot indices. -/
theorem iterList_slot_pairwise {T : Type} (b : SequenceBuffer T)
    (ha : b.newest_sequence_number < 65536) (hl : b.len ≤ 256)
    (he : b.entries.length = 256) :
    b.iterList.Pairwise (fun p q : Nat × T => p.1 % 256 ≠ q.1 % 256) := by
  unfold SequenceBuffer.iterList
  rw [List.pairwise_filterMap]
  apply List.Pairwise.imp_of_mem ?_ (List.pairwise_lt_range b.len)
  intro i j hi hj hij
  rw [List.mem_range] at hi hj
  intro x hx y hy
  rcases hgi : b.entries.getD
      (b.index (wsub b.newest_sequence_number (b.len - (i + 1)))) none
    with _ | di
  · rw [hgi] at hx
    simp at hx
  rcases hgj : b.entries.getD
      (b.index (wsub b.newest_sequence_number (b.len - (j + 1)))) none
    with _ | dj
  · rw [hgj] at hy
    simp at hy
  rw [hgi] at hx
  rw [hgj] at hy
  simp only [Option.mem_def, Option.some.injEq] at hx hy
  rw [← hx, ← hy]
  intro hcontra
  have hk := wsub_slot_inj b.newest_sequence_number (b.len - (i + 1))
    (b.len - (j + 1)) ha (by omega) (by omega) hcontra
  omega

/-- C6: after `on_ack(s)`, no live outgoing message's attempt list still
contains `s` — every message with `s` among its recorded transmissions has
been retired — and in particular the messages a subsequent `send_packets`
would include (`included_messages`) are all free of `s`. -/
theorem C6_ack_retirement (c : MessageChannel) (s : Nat)
    (h1 : c.outgoing_messages.newest_sequence_number < 65536)
    (h2 : c.outgoing_messages.len ≤ 256)
    (h3 : c.outgoing_messages.entries.length = 256) :
    (∀ p ∈ (c.on_ack s).outgoing_messages.iterList,
        s ∉ p.2.sequence_number)
    ∧ (∀ p ∈ (c.on_ack s).included_messages, s ∉ p.2.sequence_number) := by
  have hmain : ∀ p ∈ (c.on_ack s).outgoing_messages.iterList,
      s ∉ p.2.sequence_number := by
    intro p hp
    set b := c.outgoing_messages with hb
    set tmp := (b.iterList.filter
        (fun q => q.2.sequence_number.contains s)).map Prod.fst with htmp
    have hoa : (c.on_ack s).outgoing_messages
        = tmp.foldl (fun bb id => (bb.remove id).2) b := rfl
    have hlive : ∀ id ∈ tmp, ∃ k, k < b.len ∧ id = wsub
        b.newest_sequence_number k
        ∧ b.entries.getD (wsub b.newest_sequence_number k % 256) none
          ≠ none := by
      intro id hid
      rw [htmp, List.mem_map] at hid
      obtain ⟨q, hqf, hqfst⟩ := hid
      rw [List.mem_filter] at hqf
      obtain ⟨k, hk, hq1, hq2⟩ := (iterList_mem b q).mp hqf.1
      refine ⟨k, hk, by rw [← hqfst, hq1], ?_⟩
      rw [show wsub b.newest_sequence_number k % 256 = b.index q.1 from
        by rw [SequenceBuffer.index, h3, hq1], hq2]
      simp
    have hpair : tmp.Pairwise (fun x y => x % 256 ≠ y % 256) := by
      rw [htmp, List.pairwise_map]
      exact List.Pairwise.filter _ (iterList_slot_pairwise b h1 h2 h3)
    obtain ⟨f1, f2, f3, f4, f5, f6⟩ := onack_fold_spec
      b.newest_sequence_number h1 b.len h2 tmp b rfl h3 (Nat.le_refl _)
      (fun k hk _ => hk) hlive hpair
    rw [hoa] at hp
    obtain ⟨k, hkF, hp1, hp2⟩ := (iterList_mem _ p).mp hp
    rw [f1] at hp1
    rw [SequenceBuffer.index, f2] at hp2
    have hklen : k < b.len := Nat.lt_of_lt_of_le hkF f3
    intro hs
    by_cases hcase : ∃ id ∈ tmp, p.1 % 256 = id % 256
    · obtain ⟨id, hidm, heq⟩ := hcase
      have h5 := f5 id hidm
      rw [← heq] at h5
      rw [hp2] at h5
      exact absurd h5 (by simp)
    · push_neg at hcase
      have h6 := f6 (p.1 % 256) (Nat.mod_lt _ (by norm_num)) hcase
      rw [h6] at hp2
      have hpmem : p ∈ b.iterList := (iterList_mem b p).mpr
        ⟨k, hklen, hp1, by rw [SequenceBuffer.index, h3]; exact hp2⟩
      have hptmp : p.1 ∈ tmp := by
        rw [htmp, List.mem_map]
        refine ⟨p, List.mem_filter.mpr ⟨hpmem, ?_⟩, rfl⟩
        simpa using hs
      exact hcase p.1 hptmp rfl
  refine ⟨hmain, fun p hp => hmain p (List.mem_of_mem_take hp)⟩

/-- Witness for `C6_ack_retirement`: one queued message transmitted under
transport sequence 1, then acked with 1 — no surviving live message (and
none of the next build's inclusions) still records sequence 1. -/
theorem C6_ack_retirement_witness :
    (∀ p ∈ ((((MessageChannel.new.queue_message [7]).send_packets
        (VirtualConnection.new 0 0 0) 0).1.on_ack
          1).outgoing_messages.iterList),
        (1 : Nat) ∉ p.2.sequence_number)
    ∧ (∀ p ∈ ((((MessageChannel.new.queue_message [7]).send_packets
        (VirtualConnection.new 0 0 0) 0).1.on_ack 1).included_messages),
        (1 : Nat) ∉ p.2.sequence_number) :=
  C6_ack_retirement
    (((MessageChannel.new.queue_message [7]).send_packets
      (VirtualConnection.new 0 0 0) 0).1) 1
    (by decide) (by decide) (by decide)

/-- C8: for a connected client or server endpoint, a `Payload` whose
sequence classifies as `Duplicate` or `TooOld` produces no
`PacketReceived` event (the receive loop continues with `none`); exactly
the `Latest`/`Fresh` classifications yield `PacketReceived`, with the
`is_latest` flag true exactly for `Latest`. -/
theorem C8_duplicate_suppression (vc : VirtualConnection)
    (q : List (Nat × Bool)) (qs : List (Nat × Nat × Bool)) (seq : Nat)
    (ack : SequenceNumberSet) (data : List Nat) (now : ℚ) :
    (((vc.received_packets.insert_classified seq).2 = SequenceResult.Duplicate
        ∨ (vc.received_packets.insert_classified seq).2
          = SequenceResult.TooOld) →
      (client_handle_connected_packet vc q (.Payload seq ack data) now).2.2
          = none
      ∧ (server_handle_payload vc qs seq ack data now).2.2 = none)
    ∧ (((vc.received_packets.insert_classified seq).2 = SequenceResult.Latest
        ∨ (vc.received_packets.insert_classified seq).2
          = SequenceResult.Fresh) →
      (client_handle_connected_packet vc q (.Payload seq ack data) now).2.2
          = some (.PacketReceived
            ((vc.received_packets.insert_classified seq).2
              == SequenceResult.Latest) data)
      ∧ (server_handle_payload vc qs seq ack data now).2.2
          = some (.PacketReceived vc.id
            ((vc.received_packets.insert_classified seq).2
              == SequenceResult.Latest) data)) := by
  constructor
  · rintro (h | h) <;>
      exact ⟨by simp [client_handle_connected_packet,
          VirtualConnection.handle_seq, h],
        by simp [server_handle_payload, VirtualConnection.handle_seq, h]⟩
  · rintro (h | h) <;>
      exact ⟨by simp [client_handle_connected_packet,
          VirtualConnection.handle_seq, h],
        by simp [server_handle_payload, VirtualConnection.handle_seq, h,
          VirtualConnection.on_receive]⟩

/-- Witness for `C8_duplicate_suppression`: on a fresh connection,
sequence 0 is a duplicate of the initial `latest` (no event) and sequence
1 is latest (event with `is_latest = true`). -/
theorem C8_duplicate_suppression_witness :
    ((client_handle_connected_packet (VirtualConnection.new 0 3 0) []
        (.Payload 0 (SequenceNumberSet.new 0) [7]) 0).2.2 = none
      ∧ (server_handle_payload (VirtualConnection.new 0 3 0) [] 0
        (SequenceNumberSet.new 0) [7] 0).2.2 = none)
    ∧ ((client_handle_connected_packet (VirtualConnection.new 0 3 0) []
        (.Payload 1 (SequenceNumberSet.new 0) [7]) 0).2.2
        = some (.PacketReceived
          (((VirtualConnection.new 0 3 0).received_packets.insert_classified
            1).2 == SequenceResult.Latest) [7])
      ∧ (server_handle_payload (VirtualConnection.new 0 3 0) [] 1
        (SequenceNumberSet.new 0) [7] 0).2.2
        = some (.PacketReceived (VirtualConnection.new 0 3 0).id
          (((VirtualConnection.new 0 3 0).received_packets.insert_classified
            1).2 == SequenceResult.Latest) [7])) :=
  ⟨(C8_duplicate_suppression (VirtualConnection.new 0 3 0) [] [] 0
      (SequenceNumberSet.new 0) [7] 0).1 (Or.inl (by decide)),
   (C8_duplicate_suppression (VirtualConnection.new 0 3 0) [] [] 1
      (SequenceNumberSet.new 0) [7] 0).2 (Or.inl (by decide))⟩

/-- C9: API misuse is atomic and typed: `Client::send` outside the
`Connected` state returns `Disconnected` (from the `Disconnected` state)
or `ConnectionNotReady` (from `Connecting`/`Disconnecting`) with the state
unchanged and nothing handed to the transport; `Server::send` and
`Server::disconnect` with an id that has no connected client likewise
return `Disconnected` or `ConnectionNotReady` and leave the roster
unchanged with nothing sent. -/
theorem C9_api_misuse_atomicity (payload : List Nat) (now : ℚ)
    (sendErr : Option Nat) (a : Nat) (t : ℚ) (r : ClientDisconnectReason)
    (slots : List ServerClientState) (client_id : Nat)
    (hserver : ∀ vc, slots.get? client_id
      ≠ some (ServerClientState.Connected vc)) :
    client_send .Disconnected payload now sendErr
      = (.Disconnected, [], .error ConnectionError.Disconnected)
    ∧ client_send (.Connecting a t) payload now sendErr
      = (.Connecting a t, [], .error ConnectionError.ConnectionNotReady)
    ∧ client_send (.Disconnecting r) payload now sendErr
      = (.Disconnecting r, [], .error ConnectionError.ConnectionNotReady)
    ∧ (∃ err, (err = ConnectionError.Disconnected
        ∨ err = ConnectionError.ConnectionNotReady)
      ∧ server_send slots client_id payload now sendErr
          = (slots, [], .error err)
      ∧ server_disconnect slots client_id now sendErr
          = (slots, [], .error err)) := by
  refine ⟨rfl, rfl, rfl, ?_⟩
  simp only [List.get?_eq_getElem?] at hserver
  rcases hget : slots[client_id]? with _ | st
  · exact ⟨ConnectionError.Disconnected, Or.inl rfl,
      by simp [server_send, get_connection_mut, hget],
      by simp [server_disconnect, get_connection_mut, hget]⟩
  · cases st with
    | Connected vc => exact absurd hget (hserver vc)
    | Disconnected =>
      exact ⟨ConnectionError.Disconnected, Or.inl rfl,
        by simp [server_send, get_connection_mut, hget],
        by simp [server_disconnect, get_connection_mut, hget]⟩
    | Disconnecting reason =>
      exact ⟨ConnectionError.ConnectionNotReady, Or.inr rfl,
        by simp [server_send, get_connection_mut, hget],
        by simp [server_disconnect, get_connection_mut, hget]⟩

/-- Witness for `C9_api_misuse_atomicity`: a one-slot roster whose only
slot is `Disconnected`. -/
theorem C9_api_misuse_atomicity_witness :
    client_send .Disconnected [1] 0 none
      = (.Disconnected, [], .error ConnectionError.Disconnected)
    ∧ client_send (.Connecting 5 0) [1] 0 none
      = (.Connecting 5 0, [], .error ConnectionError.ConnectionNotReady)
    ∧ client_send (.Disconnecting .TimedOut) [1] 0 none
      = (.Disconnecting .TimedOut, [],
          .error ConnectionError.ConnectionNotReady)
    ∧ (∃ err, (err = ConnectionError.Disconnected
        ∨ err = ConnectionError.ConnectionNotReady)
      ∧ server_send [ServerClientState.Disconnected] 0 [1] 0 none
          = ([ServerClientState.Disconnected], [], .error err)
      ∧ server_disconnect [ServerClientState.Disconnected] 0 0 none
          = ([ServerClientState.Disconnected], [], .error err)) :=
  C9_api_misuse_atomicity [1] 0 none 5 0 .TimedOut
    [ServerClientState.Disconnected] 0 (by intro vc h; simp at h)

end UdpConnections
